import Mathlib

/-!
# weekend-escapade: a verification development

Shallow embedding of the three browser modules of the repository:

* `src/js/drive.js`       (namespace `Drive`): the phase-sequenced scene,
* `src/js/script.js`      (namespace `Dodge`): the pointer-avoiding "No" button,
* `src/js/celebration.js` (namespace `Confetti`): the confetti particles.

JavaScript numbers are modelled as exact rationals (`ℚ`): rounding error, `NaN`
and the infinities of IEEE doubles are outside the model.  `Math.random()` is
an explicit input (a draw, or a stream of draws), DOM reads (viewport, bounding
rectangle) are explicit arguments, and canvas drawing is recorded as a list of
draw calls.
-/

namespace Drive

/-! ## `src/js/drive.js`: timing constants and the two animation loops -/

/-- Constant `var MOBILE_DRIVE_THRESHOLD = 0.85;` -/
def MOBILE_DRIVE_THRESHOLD : ℚ := 85 / 100

/-- Constant `var TOTAL_DRIVE_FRAMES = 600;` -/
def TOTAL_DRIVE_FRAMES : ℤ := 600

/-- Constant `var DRIVE_END = 10;` -/
def DRIVE_END : ℚ := 10

/-- Constant `var FADE_DURATION = 3;` -/
def FADE_DURATION : ℚ := 3

/-- Constant `var BOUQUET_START = DRIVE_END + FADE_DURATION;` -/
def BOUQUET_START : ℚ := DRIVE_END + FADE_DURATION

/-- Canvas operations issued by one frame of `animate` / `animateMobile`, in
call order.  The bodies of `drawDriveScene`, `drawMoonMorph` and `drawBouquet`
are not unfolded: a frame is identified by which of them it calls and with
which arguments. -/
inductive Draw where
  /-- Call `ctx.clearRect(0, 0, width, height)` -/
  | clearRect
  /-- Call `drawDriveScene()` -/
  | driveScene
  /-- Call `drawMoonMorph(t)` -/
  | moonMorph (t : ℚ)
  /-- Call `drawBouquet(time, assemblyProgress, alpha)` -/
  | bouquet (time assemblyProgress alpha : ℚ)
  /-- Call `ctx.fillStyle = PALETTE.paper; ctx.fillRect(0, 0, width, height)` -/
  | paperFill
  deriving DecidableEq, Repr

/-- The module-level variables read and written by the animation loops. -/
structure Scene where
  startTime : ℚ
  frameCount : ℤ
  scrollProgress : ℚ
  mobileIdleStart : ℚ
  deriving DecidableEq, Repr

/-- The variables as `start()` leaves them (`startTime = 0; frameCount = 0;
scrollProgress = 0; mobileIdleStart = 0`). -/
def start : Scene :=
  { startTime := 0, frameCount := 0, scrollProgress := 0, mobileIdleStart := 0 }

/-- JavaScript `Math.round` on a rational: the nearest integer, halves towards `+∞`. -/
def jsRound (x : ℚ) : ℤ := ⌊x + 1 / 2⌋

/-- One call of `animate(timestamp)`: the updated variables and the canvas
operations of the frame.  `!startTime` is JavaScript falsiness, i.e.
`startTime = 0`. -/
def animate (s : Scene) (timestamp : ℚ) : Scene × List Draw :=
  let startTime := if s.startTime = 0 then timestamp else s.startTime
  let elapsed := (timestamp - startTime) / 1000
  if elapsed < DRIVE_END then
    -- Phase 1: Drive
    ({ s with startTime := startTime, frameCount := s.frameCount + 1 },
      [Draw.clearRect, Draw.driveScene])
  else if elapsed < BOUQUET_START then
    -- Phase 2: morph into the bouquet
    let fadeT := (elapsed - DRIVE_END) / FADE_DURATION
    ({ s with startTime := startTime, frameCount := s.frameCount + 1 },
      [Draw.clearRect, Draw.driveScene, Draw.moonMorph fadeT,
        Draw.bouquet elapsed fadeT (min 1 (fadeT * (3 / 2)))])
  else
    -- Phase 3: bouquet idle on the paper background
    let assemblyElapsed := elapsed - DRIVE_END
    let assemblyProgress := min 1 (assemblyElapsed / FADE_DURATION)
    ({ s with startTime := startTime },
      [Draw.clearRect, Draw.paperFill, Draw.bouquet elapsed assemblyProgress 1])

/-- One call of `animateMobile(timestamp)`. -/
def animateMobile (s : Scene) (timestamp : ℚ) : Scene × List Draw :=
  if s.scrollProgress < MOBILE_DRIVE_THRESHOLD then
    -- Drive phase: scroll controls progress
    ({ s with frameCount :=
          jsRound (s.scrollProgress / MOBILE_DRIVE_THRESHOLD * (TOTAL_DRIVE_FRAMES : ℚ)) },
      [Draw.clearRect, Draw.driveScene])
  else
    -- Morph phase
    let morphT :=
      min 1 ((s.scrollProgress - MOBILE_DRIVE_THRESHOLD) / (1 - MOBILE_DRIVE_THRESHOLD))
    if morphT < 1 then
      ({ s with frameCount := TOTAL_DRIVE_FRAMES, mobileIdleStart := 0 },
        [Draw.clearRect, Draw.driveScene, Draw.moonMorph morphT,
          Draw.bouquet (morphT * 3) morphT (min 1 (morphT * (3 / 2)))])
    else
      let idleStart := if s.mobileIdleStart = 0 then timestamp else s.mobileIdleStart
      let idleElapsed := (timestamp - idleStart) / 1000
      ({ s with frameCount := TOTAL_DRIVE_FRAMES, mobileIdleStart := idleStart },
        [Draw.clearRect, Draw.paperFill, Draw.bouquet (idleElapsed + 3) 1 1])

/-! ### `drawBouquet`: the idle branch -/

/-- The condition `assemblyProgress >= 1` that guards the idle breathe/sway
code of `drawBouquet` (once for the whole bouquet, once per flower). -/
def bouquetIdle (assemblyProgress : ℚ) : Bool := decide (assemblyProgress ≥ 1)

/-- The values of `breathe` and `swayX` computed at the top of
`drawBouquet(elapsed, assemblyProgress, alpha)`; `sinF` stands for `Math.sin`. -/
def bouquetBreatheSway (sinF : ℚ → ℚ) (elapsed assemblyProgress : ℚ) : ℚ × ℚ :=
  if bouquetIdle assemblyProgress then
    (98 / 100 + sinF (elapsed * (3 / 2)) * (2 / 100), sinF (elapsed * (8 / 10)) * (3 / 2))
  else
    (1, 0)

/-- The fields of an entry of `bouquetFlowers` (built by `initBouquet`) that
`drawBouquet` reads. -/
structure Flower where
  type : String
  color : String
  scale : ℚ
  targetX : ℚ
  targetY : ℚ
  startX : ℚ
  startY : ℚ
  delay : ℚ
  swayPhase : ℚ
  swaySpeed : ℚ
  deriving DecidableEq, Repr

/-- Function `easeOutCubic(t)`: `1 - Math.pow(1 - t, 3)`. -/
def easeOutCubic (t : ℚ) : ℚ := 1 - (1 - t) ^ 3

/-- The call `drawRose(fx, fy, f.scale, f.color, fAlpha)` (when `rose`) or
`drawDaisy(fx, fy, f.scale, f.color, fAlpha)` made for one flower. -/
structure FlowerDraw where
  rose : Bool
  fx : ℚ
  fy : ℚ
  scale : ℚ
  color : String
  fAlpha : ℚ
  deriving DecidableEq, Repr

/-- The body of the flower loop of `drawBouquet` for one flower `f`; `sinF` and
`cosF` stand for `Math.sin` and `Math.cos`. -/
def drawFlower (sinF cosF : ℚ → ℚ) (elapsed assemblyProgress alpha : ℚ) (f : Flower) :
    FlowerDraw :=
  let p₀ := max 0 (min 1 ((assemblyProgress - f.delay) / (8 / 10)))
  let p := easeOutCubic p₀
  let fx := f.startX + (f.targetX - f.startX) * p
  let fy := f.startY + (f.targetY - f.startY) * p
  let fAlpha := alpha * min 1 (p * 2)
  let fx₁ :=
    if bouquetIdle assemblyProgress then
      fx + sinF (elapsed * f.swaySpeed + f.swayPhase) * (3 / 2)
    else fx
  let fy₁ :=
    if bouquetIdle assemblyProgress then
      fy + cosF (elapsed * f.swaySpeed * (7 / 10) + f.swayPhase) * 1
    else fy
  { rose := decide (f.type = "rose"), fx := fx₁, fy := fy₁, scale := f.scale,
    color := f.color, fAlpha := fAlpha }

/-- What one call of `drawBouquet` does that depends on its idle branch: the
canvas transform (`translate(swayX, 0)` and `scale(breathe, breathe)` about the
bouquet centre) and the flowers drawn under it. -/
structure BouquetDraw where
  breathe : ℚ
  swayX : ℚ
  flowers : List FlowerDraw
  deriving DecidableEq, Repr

/-- Function `drawBouquet(elapsed, assemblyProgress, alpha)` over the list
`bouquetFlowers`.  The calls `drawWrapping`, `drawStems` and `drawLeaves`, which
paint under the same transform and have no idle branch, are not recorded. -/
def drawBouquet (sinF cosF : ℚ → ℚ) (bouquetFlowers : List Flower)
    (elapsed assemblyProgress alpha : ℚ) : BouquetDraw :=
  { breathe := (bouquetBreatheSway sinF elapsed assemblyProgress).1
    swayX := (bouquetBreatheSway sinF elapsed assemblyProgress).2
    flowers := bouquetFlowers.map (drawFlower sinF cosF elapsed assemblyProgress alpha) }

/-- The `drawBouquet` calls among the canvas operations of a frame, executed
in order. -/
def bouquetCalls (sinF cosF : ℚ → ℚ) (bouquetFlowers : List Flower) :
    List Draw → List BouquetDraw
  | [] => []
  | Draw.bouquet elapsed assemblyProgress alpha :: rest =>
    drawBouquet sinF cosF bouquetFlowers elapsed assemblyProgress alpha ::
      bouquetCalls sinF cosF bouquetFlowers rest
  | _ :: rest => bouquetCalls sinF cosF bouquetFlowers rest

/-! ### Palm trees and road markers -/

/-- Variable `var scrollSpeed = 2;` (never reassigned). -/
def scrollSpeed : ℚ := 2

/-- The fields of a `PalmTree`, with the `origX` both creation sites add. -/
structure PalmTree where
  x : ℚ
  height : ℚ
  lean : ℚ
  segments : ℤ
  origX : ℚ
  deriving DecidableEq, Repr

/-- The fields of a `RoadMarker`, with the `origX` that `initWorld` adds.  The
field `w` is set to 40 by the constructor and never written again, so it is a
constant of the type (`RoadMarker.w`). -/
structure RoadMarker where
  x : ℚ
  origX : ℚ
  deriving DecidableEq, Repr

/-- The field `this.w = 40` of every `RoadMarker`. -/
def RoadMarker.w (_m : RoadMarker) : ℚ := 40

/-- The statements `var t = new PalmTree(x); t.origX = t.x;`, with `r0`, `r1`,
`r2` the three `Math.random()` results of the constructor. -/
def newPalmTree (x r0 r1 r2 : ℚ) : PalmTree :=
  { x := x
    height := r0 * 60 + 80
    lean := r1 * 20 - 10
    segments := ⌊r2 * 5⌋ + 6
    origX := x }

/-- Truncation towards zero, as used by the JavaScript remainder. -/
def jsTrunc (q : ℚ) : ℤ := if 0 ≤ q then ⌊q⌋ else ⌈q⌉

/-- The JavaScript remainder `a % c` for `c ≠ 0`: `a - c * trunc(a / c)`, with
the sign of the dividend. -/
def jsRem (a c : ℚ) : ℚ := a - c * (jsTrunc (a / c) : ℚ)

/-- The loop `while (x < bound) x += cycle;`, run with `fuel` evaluations of its
condition at most.  It returns the final `x` together with the number of times
the body was executed (starting from `n`), or `none` when the fuel runs out
before the condition fails. -/
def addWhileBelow (bound cycle : ℚ) : ℕ → ℚ → ℕ → Option (ℚ × ℕ)
  | 0, _, _ => none
  | fuel + 1, x, n =>
    if x < bound then addWhileBelow bound cycle fuel (x + cycle) (n + 1) else some (x, n)

/-- Method `PalmTree.prototype.computeX(fc)`, for the canvas width `width`:
the returned `x` and the number of executions of the loop body. -/
def PalmTree.computeX (width : ℚ) (fuel : ℕ) (t : PalmTree) (fc : ℚ) : Option (ℚ × ℕ) :=
  let totalShift := fc * scrollSpeed
  let cycle := width + 200
  let x := t.origX - jsRem totalShift cycle
  addWhileBelow (-50) cycle fuel x 0

/-- Method `RoadMarker.prototype.computeX(fc)`, for the canvas width `width`:
the returned `x` and the number of executions of the loop body. -/
def RoadMarker.computeX (width : ℚ) (fuel : ℕ) (m : RoadMarker) (fc : ℚ) : Option (ℚ × ℕ) :=
  let totalShift := fc * scrollSpeed * (5 / 2)
  let cycle := width + 100
  let x := m.origX - jsRem totalShift cycle
  addWhileBelow (-m.w) cycle fuel x 0

/-! ### The tree and marker loops of `drawDriveScene`

Reading `trees[i]` (or `roadMarkers[j]`) at an index outside the list gives
`undefined`, and the property access that follows throws: the model returns
`none`.  `rnd` is the stream of `Math.random()` results and `k` the number of
draws already consumed. -/

/-- The body of the tree loop up to, and not including, `trees[i].draw(groundY)`:
the new list and draw counter. -/
def treeUpdate (isMobile : Bool) (width : ℚ) (frameCount : ℤ) (fuel : ℕ) (rnd : ℕ → ℚ)
    (i : ℕ) (trees : List PalmTree) (k : ℕ) : Option (List PalmTree × ℕ) :=
  match trees[i]? with
  | none => none
  | some t =>
    if isMobile then
      match t.computeX width fuel (frameCount : ℚ) with
      | none => none
      | some (x, _) => some (trees.set i { t with x := x }, k)
    else
      -- trees[i].update(scrollSpeed)
      let t₁ := { t with x := t.x - scrollSpeed }
      let trees₁ := trees.set i t₁
      if t₁.x < -50 then
        -- trees.splice(i, 1); trees.push(nt)
        let nt := newPalmTree (width + rnd k * 100) (rnd (k + 1)) (rnd (k + 2)) (rnd (k + 3))
        some (trees₁.eraseIdx i ++ [nt], k + 4)
      else
        some (trees₁, k)

/-- One iteration of the tree loop at index `i`: the new list, the draw
counter and the tree on which `draw` is called. -/
def treeIteration (isMobile : Bool) (width : ℚ) (frameCount : ℤ) (fuel : ℕ) (rnd : ℕ → ℚ)
    (i : ℕ) (trees : List PalmTree) (k : ℕ) : Option (List PalmTree × ℕ × PalmTree) :=
  match treeUpdate isMobile width frameCount fuel rnd i trees k with
  | none => none
  | some (trees', k') =>
    match trees'[i]? with
    | none => none
    | some d => some (trees', k', d)

/-- The loop `for (var i = trees.length - 1; i >= 0; i--)`, entered with
`i + 1` equal to the first argument; `drawn` collects the trees drawn. -/
def treeLoop (isMobile : Bool) (width : ℚ) (frameCount : ℤ) (fuel : ℕ) (rnd : ℕ → ℚ) :
    ℕ → List PalmTree → ℕ → List PalmTree → Option (List PalmTree × ℕ × List PalmTree)
  | 0, trees, k, drawn => some (trees, k, drawn)
  | i + 1, trees, k, drawn =>
    match treeIteration isMobile width frameCount fuel rnd i trees k with
    | none => none
    | some (trees', k', d) => treeLoop isMobile width frameCount fuel rnd i trees' k' (drawn ++ [d])

/-- One iteration of the road-marker loop at index `j`: the new list and the
marker on which `draw` is called. -/
def markerIteration (isMobile : Bool) (width : ℚ) (frameCount : ℤ) (fuel : ℕ)
    (j : ℕ) (roadMarkers : List RoadMarker) : Option (List RoadMarker × RoadMarker) :=
  match roadMarkers[j]? with
  | none => none
  | some m =>
    if isMobile then
      match m.computeX width fuel (frameCount : ℚ) with
      | none => none
      | some (x, _) => some (roadMarkers.set j { m with x := x }, { m with x := x })
    else
      -- roadMarkers[j].update(scrollSpeed * 2.5)
      let m₁ := { m with x := m.x - scrollSpeed * (5 / 2) }
      let m₂ := if m₁.x < -m₁.w then { m₁ with x := width } else m₁
      some (roadMarkers.set j m₂, m₂)

/-- The loop `for (var j = roadMarkers.length - 1; j >= 0; j--)`, entered with
`j + 1` equal to the first argument. -/
def markerLoop (isMobile : Bool) (width : ℚ) (frameCount : ℤ) (fuel : ℕ) :
    ℕ → List RoadMarker → List RoadMarker → Option (List RoadMarker × List RoadMarker)
  | 0, roadMarkers, drawn => some (roadMarkers, drawn)
  | j + 1, roadMarkers, drawn =>
    match markerIteration isMobile width frameCount fuel j roadMarkers with
    | none => none
    | some (roadMarkers', d) =>
      markerLoop isMobile width frameCount fuel j roadMarkers' (drawn ++ [d])

/-- The result of the two loops of one `drawDriveScene()` call. -/
structure SceneFrame where
  trees : List PalmTree
  roadMarkers : List RoadMarker
  /-- Number of `Math.random()` results consumed so far -/
  draws : ℕ
  drawnTrees : List PalmTree
  drawnMarkers : List RoadMarker
  deriving DecidableEq, Repr

/-- The part of `drawDriveScene()` that reads or writes `trees` and
`roadMarkers`: the tree loop, then the marker loop.  The other statements only
paint. -/
def drawDriveScene (isMobile : Bool) (width : ℚ) (frameCount : ℤ) (fuel : ℕ) (rnd : ℕ → ℚ)
    (trees : List PalmTree) (roadMarkers : List RoadMarker) (k : ℕ) : Option SceneFrame :=
  match treeLoop isMobile width frameCount fuel rnd trees.length trees k [] with
  | none => none
  | some (trees', k', drawnTrees) =>
    match markerLoop isMobile width frameCount fuel roadMarkers.length roadMarkers [] with
    | none => none
    | some (roadMarkers', drawnMarkers) =>
      some { trees := trees', roadMarkers := roadMarkers', draws := k',
             drawnTrees := drawnTrees, drawnMarkers := drawnMarkers }

end Drive

namespace Dodge

/-! ## `src/js/script.js`: the dodging "No" button -/

/-- Constant `config.triggerDistance` -/
def triggerDistance : ℚ := 100

/-- Constant `config.mobileTriggerDistance` -/
def mobileTriggerDistance : ℚ := 80

/-- Constant `config.padding` -/
def padding : ℚ := 20

/-- Constant `config.maxDodges` -/
def maxDodges : ℕ := 5

/-- Constant `const maxAttempts = 10;` in `moveButton` -/
def maxAttempts : ℕ := 10

/-- Constant `const hints = [...]` -/
def hints : List String :=
  [ "Nice try! 😏",
    "The button doesn\x27t want to be clicked!",
    "Almost got it... not!",
    "Keep trying! (It won\x27t help)",
    "Okay okay, just click YES! 💕" ]

/-- The text assigned to the hint once `maxDodges` is reached. -/
def finalHint : String := "Just click YES already! 💕"

/-- Result of `getViewport()`. -/
structure Viewport where
  width : ℚ
  height : ℚ
  deriving DecidableEq, Repr

/-- Result of `getButtonRect()` (the fields of the `DOMRect` that are read). -/
structure Rect where
  left : ℚ
  top : ℚ
  width : ℚ
  height : ℚ
  deriving DecidableEq, Repr

/-- The `{ x, y }` objects returned by `getRandomPosition`. -/
structure Pos where
  x : ℚ
  y : ℚ
  deriving DecidableEq, Repr

/-- What a handler reads from the browser while it runs: the viewport, the
button's bounding rectangle and whether `isTouchDevice()` holds. -/
structure Env where
  viewport : Viewport
  rect : Rect
  touch : Bool
  deriving DecidableEq, Repr

/-- The script's variables (`dodgeCount`, `isDodging`, `isFixed`), the parts of
the DOM it writes (the button's classes and inline position, the hint), and the
number of `setTimeout` callbacks not yet run. -/
structure State where
  dodgeCount : ℕ
  isDodging : Bool
  isFixed : Bool
  /-- Whether `noButton.classList.contains('dodging')` -/
  dodging : Bool
  /-- Whether `noButton.classList.contains('shrinking')` -/
  shrinking : Bool
  /-- Value of `noButton.style.left` in px, `none` while unset -/
  left : Option ℚ
  /-- Value of `noButton.style.top` in px, `none` while unset -/
  top : Option ℚ
  /-- Value of `hintText.textContent`, `none` while the script has not written it -/
  hintText : Option String
  /-- Whether `hintText.style.opacity` has been set to `'1'` -/
  hintShown : Bool
  pendingTimers : ℕ
  deriving DecidableEq, Repr

/-- The state when the script is loaded. -/
def initial : State :=
  { dodgeCount := 0, isDodging := false, isFixed := false, dodging := false,
    shrinking := false, left := none, top := none, hintText := none,
    hintShown := false, pendingTimers := 0 }

/-- The argument of `Math.sqrt` in `getDistance(x, y, rect)`: the squared
distance from the point to the centre of the rectangle. -/
def getDistanceSq (x y : ℚ) (rect : Rect) : ℚ :=
  let centerX := rect.left + rect.width / 2
  let centerY := rect.top + rect.height / 2
  (x - centerX) ^ 2 + (y - centerY) ^ 2

/-- The test `Math.sqrt(a) < t`, decided without extracting the root. -/
def sqrtLt (a t : ℚ) : Prop := 0 < t ∧ a < t ^ 2

/-- The test `Math.sqrt(a) > t`, decided without extracting the root. -/
def sqrtGt (a t : ℚ) : Prop := t < 0 ∨ t ^ 2 < a

instance (a t : ℚ) : Decidable (sqrtLt a t) := by unfold sqrtLt; infer_instance

instance (a t : ℚ) : Decidable (sqrtGt a t) := by unfold sqrtGt; infer_instance

/-- Function `getRandomPosition()`, with the two `Math.random()` results `rx`, `ry`. -/
def getRandomPosition (viewport : Viewport) (buttonRect : Rect) (rx ry : ℚ) : Pos :=
  let maxX := viewport.width - buttonRect.width - padding
  let maxY := viewport.height - buttonRect.height - padding
  { x := padding + rx * (maxX - padding), y := padding + ry * (maxY - padding) }

/-- The `k`-th position generated inside one `moveButton` call (`k = 0` is the
initial `getRandomPosition()`), `rnd k` being its pair of random draws. -/
def candidate (env : Env) (rnd : ℕ → ℚ × ℚ) (k : ℕ) : Pos :=
  getRandomPosition env.viewport env.rect (rnd k).1 (rnd k).2

/-- The argument of `Math.sqrt` in the retry loop of `moveButton`. -/
def pointerDistSq (newPos : Pos) (pointerX pointerY : ℚ) : ℚ :=
  (newPos.x - pointerX) ^ 2 + (newPos.y - pointerY) ^ 2

/-- The retry loop of `moveButton`, entered with the current `attempts` and
`newPos`: `while (attempts < maxAttempts) { if (distance > triggerDistance * 1.5)
break; newPos = getRandomPosition(); attempts++; }`, returning the final
`newPos`. -/
def retryLoop (env : Env) (rnd : ℕ → ℚ × ℚ) (pointerX pointerY : ℚ)
    (attempts : ℕ) (newPos : Pos) : Pos :=
  if attempts < maxAttempts then
    if sqrtGt (pointerDistSq newPos pointerX pointerY) (triggerDistance * (3 / 2)) then
      newPos
    else
      retryLoop env rnd pointerX pointerY (attempts + 1) (candidate env rnd (attempts + 1))
  else
    newPos
termination_by maxAttempts - attempts
decreasing_by omega

/-- Function `moveButton(pointerX, pointerY)`.  The inline position written when the
`dodging` class is first added is overwritten by the new position later in the
same call, so only the latter is kept. -/
def moveButton (s : State) (env : Env) (rnd : ℕ → ℚ × ℚ) (pointerX pointerY : ℚ) : State :=
  if s.isDodging || s.isFixed then s
  else
    let dodgeCount := s.dodgeCount + 1
    let newPos := retryLoop env rnd pointerX pointerY 0 (candidate env rnd 0)
    -- Update hint text
    let hintText₁ :=
      if dodgeCount ≤ hints.length then hints.get? (dodgeCount - 1) else s.hintText
    let hintShown := if dodgeCount ≤ hints.length then true else s.hintShown
    -- After max dodges, shrink the button
    let maxed : Bool := decide (maxDodges ≤ dodgeCount)
    { dodgeCount := dodgeCount
      isDodging := true
      isFixed := if maxed then true else s.isFixed
      dodging := true
      shrinking := if maxed then true else s.shrinking
      left := some newPos.x
      top := some newPos.y
      hintText := if maxed then some finalHint else hintText₁
      hintShown := hintShown
      pendingTimers := s.pendingTimers + 1 }

/-- The `moveButton` call made by `handleMouseMove(e)`, if any, with its
arguments; `x`, `y` are `e.clientX`, `e.clientY`. -/
def handleMouseMoveCall (s : State) (env : Env) (x y : ℚ) : Option (ℚ × ℚ) :=
  if s.isFixed then none
  else
    let triggerDist := if env.touch then mobileTriggerDistance else triggerDistance
    if sqrtLt (getDistanceSq x y env.rect) triggerDist then some (x, y) else none

/-- The `moveButton` call made by `handleTouchMove(e)`, if any; `x`, `y` are the
client coordinates of `e.touches[0]`. -/
def handleTouchMoveCall (s : State) (env : Env) (x y : ℚ) : Option (ℚ × ℚ) :=
  if s.isFixed then none
  else if sqrtLt (getDistanceSq x y env.rect) mobileTriggerDistance then some (x, y) else none

/-- Runs the `moveButton` call a handler makes, if it makes one. -/
def runCall (s : State) (env : Env) (rnd : ℕ → ℚ × ℚ) : Option (ℚ × ℚ) → State
  | none => s
  | some (px, py) => moveButton s env rnd px py

/-- Function `handleMouseMove(e)` -/
def handleMouseMove (s : State) (env : Env) (rnd : ℕ → ℚ × ℚ) (x y : ℚ) : State :=
  runCall s env rnd (handleMouseMoveCall s env x y)

/-- Function `handleTouchStart(e)`; `x`, `y` are the client coordinates of `e.touches[0]`. -/
def handleTouchStart (s : State) (env : Env) (rnd : ℕ → ℚ × ℚ) (x y : ℚ) : State :=
  if s.isFixed then s else moveButton s env rnd x y

/-- Function `handleTouchMove(e)` -/
def handleTouchMove (s : State) (env : Env) (rnd : ℕ → ℚ × ℚ) (x y : ℚ) : State :=
  runCall s env rnd (handleTouchMoveCall s env x y)

/-- The `click` listener installed on the button by `init`. -/
def handleClick (s : State) (env : Env) (rnd : ℕ → ℚ × ℚ) (x y : ℚ) : State :=
  if !s.isFixed || decide (s.dodgeCount < maxDodges) then moveButton s env rnd x y else s

/-- The callback passed to `setTimeout` by `moveButton`; it can run only while
one is pending. -/
def dodgeTimeout (s : State) : State :=
  if s.pendingTimers = 0 then s
  else { s with isDodging := false, pendingTimers := s.pendingTimers - 1 }

/-- Function `handleResize()`; `parseFloat` of an unset inline position is `NaN`, so the
clamp is modelled only for positions that are set. -/
def handleResize (s : State) (env : Env) : State :=
  if !s.dodging then s
  else
    let clampX := fun x : ℚ =>
      max padding (min x (env.viewport.width - env.rect.width - padding))
    let clampY := fun y : ℚ =>
      max padding (min y (env.viewport.height - env.rect.height - padding))
    { s with left := s.left.map clampX, top := s.top.map clampY }

/-- The events the script listens to. -/
inductive Event where
  | mouseMove (x y : ℚ)
  | touchStart (x y : ℚ)
  | touchMove (x y : ℚ)
  | click (x y : ℚ)
  | timeout
  | resize
  deriving DecidableEq, Repr

/-- One event handled in environment `env`, with `rnd` the random draws
available to it. -/
def step (s : State) (env : Env) (rnd : ℕ → ℚ × ℚ) : Event → State
  | Event.mouseMove x y => handleMouseMove s env rnd x y
  | Event.touchStart x y => handleTouchStart s env rnd x y
  | Event.touchMove x y => handleTouchMove s env rnd x y
  | Event.click x y => handleClick s env rnd x y
  | Event.timeout => dodgeTimeout s
  | Event.resize => handleResize s env

/-- States reachable from `initial` by handling events. -/
inductive Reachable : State → Prop where
  | init : Reachable initial
  | step {s : State} (env : Env) (rnd : ℕ → ℚ × ℚ) (e : Event) :
      Reachable s → Reachable (step s env rnd e)

/-- The invariant of the dodge counter: it never exceeds `maxDodges`, and the
button is fixed, and shrinking, exactly when the counter has reached it. -/
def CounterInv (s : State) : Prop :=
  s.dodgeCount ≤ maxDodges ∧ (s.isFixed = true ↔ maxDodges ≤ s.dodgeCount) ∧
    s.shrinking = s.isFixed

/-- A sequence of events handled one after the other, all in the same
environment and with the same random draws. -/
def runEvents (s : State) (env : Env) (rnd : ℕ → ℚ × ℚ) (es : List Event) : State :=
  es.foldl (fun st e => step st env rnd e) s

/-- A desktop session: a 1280 x 720 viewport, a 100 x 40 button. -/
def desktopEnv : Env :=
  { viewport := ⟨1280, 720⟩, rect := ⟨600, 400, 100, 40⟩, touch := false }

/-- Five clicks at (640, 410), the dodge timer expiring after each of the
first four. -/
def fiveClicks : List Event :=
  [Event.click 640 410, Event.timeout, Event.click 640 410, Event.timeout,
    Event.click 640 410, Event.timeout, Event.click 640 410, Event.timeout,
    Event.click 640 410]

end Dodge

namespace Confetti

/-! ## `src/js/celebration.js`: the confetti particles -/

/-- Constant `confettiConfig.colors` -/
def colors : List String :=
  ["#FFD700", "#6B5B95", "#4A90D9", "#FFB6C1", "#4ADE80", "#FFFFFF"]

/-- Constant `confettiConfig.shapes` -/
def shapes : List String := ["square", "circle", "heart", "chip"]

/-- Constant `confettiConfig.gravity` as initialised (and as restored by a click) -/
def initialGravity : ℚ := 3 / 10

/-- Constant `confettiConfig.terminalVelocity` -/
def terminalVelocity : ℚ := 5

/-- The canvas size (`canvas.width`, `canvas.height`). -/
structure Canvas where
  width : ℚ
  height : ℚ
  deriving DecidableEq, Repr

/-- The fields of a `Particle`. -/
structure Particle where
  x : ℚ
  y : ℚ
  size : ℚ
  vx : ℚ
  vy : ℚ
  rotation : ℚ
  rotationSpeed : ℚ
  color : Option String
  shape : Option String
  wobble : ℚ
  wobbleSpeed : ℚ
  opacity : ℚ
  deriving DecidableEq, Repr

/-- Function `Particle.reset()`; `rnd k` is the result of its `k`-th `Math.random()`
call, in program order. -/
def reset (canvas : Canvas) (rnd : ℕ → ℚ) : Particle :=
  { x := rnd 0 * canvas.width
    y := rnd 1 * -canvas.height
    size := rnd 2 * 8 + 4
    vx := (rnd 3 - 1 / 2) * 4
    vy := rnd 4 * 3 + 2
    rotation := rnd 5 * 360
    rotationSpeed := (rnd 6 - 1 / 2) * 10
    color := colors.get? ⌊rnd 7 * (colors.length : ℚ)⌋.toNat
    shape := shapes.get? ⌊rnd 8 * (shapes.length : ℚ)⌋.toNat
    wobble := rnd 9 * 10
    wobbleSpeed := rnd 10 * (1 / 10) + 1 / 20
    opacity := 1 }

/-- The part of `Particle.update()` before its last `if`: gravity, the cap on
`vy`, the position, rotation and wobble updates and the fade near the bottom.
`gravity` is the current `confettiConfig.gravity` and `sinF` stands for
`Math.sin`. -/
def advance (canvas : Canvas) (gravity : ℚ) (sinF : ℚ → ℚ) (p : Particle) : Particle :=
  let vy := min (p.vy + gravity) terminalVelocity
  let x := p.x + (p.vx + sinF p.wobble * 2)
  let y := p.y + vy
  { p with
    vy := vy
    x := x
    y := y
    rotation := p.rotation + p.rotationSpeed
    wobble := p.wobble + p.wobbleSpeed
    opacity := if y > canvas.height - 100 then max 0 ((canvas.height - y) / 100) else p.opacity }

/-- The condition of the last `if` of `Particle.update()`. -/
def offScreen (canvas : Canvas) (p : Particle) : Prop :=
  p.y > canvas.height + 50 ∨ p.x < -50 ∨ p.x > canvas.width + 50

instance (canvas : Canvas) (p : Particle) : Decidable (offScreen canvas p) := by
  unfold offScreen; infer_instance

/-- Function `Particle.update()`; `rnd` supplies the draws for the `reset()` it may
call. -/
def update (canvas : Canvas) (gravity : ℚ) (sinF : ℚ → ℚ) (rnd : ℕ → ℚ) (p : Particle) :
    Particle :=
  let q := advance canvas gravity sinF p
  if offScreen canvas q then reset canvas rnd else q

/-- The callback `burst()` schedules for one particle; `rnd k` is the result of
its `k`-th `Math.random()` call. -/
def burst (canvas : Canvas) (rnd : ℕ → ℚ) (p : Particle) : Particle :=
  { p with
    y := -10
    x := canvas.width / 2 + (rnd 0 - 1 / 2) * 200
    vy := rnd 1 * 5 + 3
    vx := (rnd 2 - 1 / 2) * 15 }

/-- A stream of `Math.random()` results: every draw lies in `[0, 1)`. -/
def UnitDraws (rnd : ℕ → ℚ) : Prop := ∀ k, 0 ≤ rnd k ∧ rnd k < 1

/-- The values `confettiConfig.gravity` takes: it starts at `0.3`, `animate`
lowers it in steps but never below `0.05`, and a click restores `0.3`. -/
def GravityRange (g : ℚ) : Prop := 1 / 20 ≤ g ∧ g ≤ 3 / 10

/-- Particle states reachable on a canvas of fixed size: construction
(`reset`), `update` under any gravity in range, and the `burst` callback.
`sinF` stands for `Math.sin`. -/
inductive Reachable (canvas : Canvas) (sinF : ℚ → ℚ) : Particle → Prop where
  | construct (rnd : ℕ → ℚ) (h : UnitDraws rnd) : Reachable canvas sinF (reset canvas rnd)
  | update {p : Particle} (g : ℚ) (hg : GravityRange g) (rnd : ℕ → ℚ) (h : UnitDraws rnd) :
      Reachable canvas sinF p → Reachable canvas sinF (update canvas g sinF rnd p)
  | burst {p : Particle} (rnd : ℕ → ℚ) (h : UnitDraws rnd) :
      Reachable canvas sinF p → Reachable canvas sinF (burst canvas rnd p)

end Confetti

/-! # Theorems -/

namespace Drive

/-! ## The desktop loop `animate` -/

/-- C1 (evaluated on the code): with the first frame at timestamp 1000 ms, the
frame 12 s later already renders the crossfade (drive scene, moon morph with
`fadeT = 2/3`, bouquet) and the frame 15 s later renders the idle bouquet on
the paper background, while the header comment of `drive.js` announces the
drive scene alone until 18 s. -/
theorem animate_before_18s_not_drive_only :
    (animate (animate start 1000).1 13000).2 =
        [Draw.clearRect, Draw.driveScene, Draw.moonMorph (2 / 3), Draw.bouquet 12 (2 / 3) 1] ∧
      (animate (animate start 1000).1 16000).2 =
        [Draw.clearRect, Draw.paperFill, Draw.bouquet 15 1 1] := by
  constructor <;>
    norm_num [animate, start, DRIVE_END, BOUQUET_START, FADE_DURATION]

/-! ## The scroll-driven loop `animateMobile` -/

/-- C2: for every scroll progress `s` in `[0, 1]`, `animateMobile` renders the
drive scene only when `s < 0.85`; renders the morph (drive scene, moon morph,
bouquet) with `morphT = (s - 0.85) / 0.15`, which lies in `[0, 1)`, when
`0.85 ≤ s < 1`; and takes the idle-bouquet branch (paper fill, bouquet with
assembly progress 1) exactly when `s = 1`. -/
theorem animateMobile_phases (s : Scene) (timestamp : ℚ)
    (_h0 : 0 ≤ s.scrollProgress) (h1 : s.scrollProgress ≤ 1) :
    (s.scrollProgress < 85 / 100 →
        (animateMobile s timestamp).2 = [Draw.clearRect, Draw.driveScene]) ∧
      (85 / 100 ≤ s.scrollProgress → s.scrollProgress < 1 →
        0 ≤ (s.scrollProgress - 85 / 100) / (15 / 100) ∧
        (s.scrollProgress - 85 / 100) / (15 / 100) < 1 ∧
        (animateMobile s timestamp).2 =
          [Draw.clearRect, Draw.driveScene,
            Draw.moonMorph ((s.scrollProgress - 85 / 100) / (15 / 100)),
            Draw.bouquet ((s.scrollProgress - 85 / 100) / (15 / 100) * 3)
              ((s.scrollProgress - 85 / 100) / (15 / 100))
              (min 1 ((s.scrollProgress - 85 / 100) / (15 / 100) * (3 / 2)))]) ∧
      ((∃ t, (animateMobile s timestamp).2 = [Draw.clearRect, Draw.paperFill, Draw.bouquet t 1 1])
        ↔ s.scrollProgress = 1) := by
  have hdiv : ∀ x : ℚ, x < 1 → (x - 85 / 100) / (15 / 100) < 1 := by
    intro x hx
    rw [div_lt_one (by norm_num)]
    linarith
  refine ⟨?_, ?_, ?_⟩
  · intro h
    simp [animateMobile, MOBILE_DRIVE_THRESHOLD, h]
  · intro ha hb
    have hm := hdiv _ hb
    have hnot : ¬ s.scrollProgress < 85 / 100 := not_lt.mpr ha
    refine ⟨div_nonneg (by linarith) (by norm_num), hm, ?_⟩
    have e : (1 : ℚ) - 85 / 100 = 15 / 100 := by norm_num
    have hmin : min 1 ((s.scrollProgress - 85 / 100) / (15 / 100))
        = (s.scrollProgress - 85 / 100) / (15 / 100) := min_eq_right hm.le
    simp only [animateMobile, MOBILE_DRIVE_THRESHOLD, hnot, if_false, e, hmin, hm, if_true]
  · constructor
    · rintro ⟨t, ht⟩
      by_contra hne
      have hlt : s.scrollProgress < 1 := lt_of_le_of_ne h1 hne
      by_cases hd : s.scrollProgress < 85 / 100
      · simp [animateMobile, MOBILE_DRIVE_THRESHOLD, hd] at ht
      · have hm := hdiv _ hlt
        have e : (1 : ℚ) - 85 / 100 = 15 / 100 := by norm_num
        have hmin : min 1 ((s.scrollProgress - 85 / 100) / (15 / 100))
            = (s.scrollProgress - 85 / 100) / (15 / 100) := min_eq_right hm.le
        simp only [animateMobile, MOBILE_DRIVE_THRESHOLD, hd, if_false, e, hmin, hm,
          if_true] at ht
        simp at ht
    · intro h
      refine ⟨((timestamp - if s.mobileIdleStart = 0 then timestamp else s.mobileIdleStart)
        / 1000) + 3, ?_⟩
      norm_num [animateMobile, MOBILE_DRIVE_THRESHOLD, h]

/-- Witness for `animateMobile_phases`: at scroll progress `0.9` the morph is
drawn with `morphT = 1/3`. -/
theorem animateMobile_phases_witness :
    (animateMobile { start with scrollProgress := 9 / 10 } 0).2 =
      [Draw.clearRect, Draw.driveScene, Draw.moonMorph (1 / 3),
        Draw.bouquet 1 (1 / 3) (1 / 2)] := by
  have h := (animateMobile_phases { start with scrollProgress := 9 / 10 } 0
    (by norm_num) (by norm_num)).2.1 (by norm_num) (by norm_num)
  have h2 := h.2.2
  norm_num at h2
  exact h2

end Drive

namespace Dodge

/-! ## Distance tests -/

/-- The root-free test `sqrtLt` agrees with comparing the real square root. -/
theorem sqrtLt_iff_real (a t : ℚ) : sqrtLt a t ↔ Real.sqrt (a : ℝ) < (t : ℝ) := by
  unfold sqrtLt
  constructor
  · rintro ⟨ht, h⟩
    have ht' : (0 : ℝ) < (t : ℝ) := by exact_mod_cast ht
    rw [Real.sqrt_lt' ht']
    exact_mod_cast h
  · intro h
    have ht' : (0 : ℝ) < (t : ℝ) := lt_of_le_of_lt (Real.sqrt_nonneg _) h
    refine ⟨by exact_mod_cast ht', ?_⟩
    rw [Real.sqrt_lt' ht'] at h
    exact_mod_cast h

/-- The root-free test `sqrtGt` agrees with comparing the real square root. -/
theorem sqrtGt_iff_real (a t : ℚ) : sqrtGt a t ↔ (t : ℝ) < Real.sqrt (a : ℝ) := by
  unfold sqrtGt
  by_cases ht : t < 0
  · have ht' : (t : ℝ) < 0 := by exact_mod_cast ht
    simp only [ht, true_or, true_iff]
    exact lt_of_lt_of_le ht' (Real.sqrt_nonneg _)
  · have ht' : (0 : ℝ) ≤ (t : ℝ) := by exact_mod_cast not_lt.mp ht
    simp only [ht, false_or]
    rw [Real.lt_sqrt ht']
    exact_mod_cast Iff.rfl

/-- The Euclidean distance from `(x, y)` to the centre of `rect`, as a real
number, is the square root of `getDistanceSq`. -/
theorem getDistanceSq_cast (x y : ℚ) (rect : Rect) :
    ((getDistanceSq x y rect : ℚ) : ℝ) =
      ((x : ℝ) - ((rect.left : ℝ) + (rect.width : ℝ) / 2)) ^ 2 +
        ((y : ℝ) - ((rect.top : ℝ) + (rect.height : ℝ) / 2)) ^ 2 := by
  simp [getDistanceSq]

/-! ## The move handlers -/

/-- The only call `handleMouseMove` can make is `moveButton(e.clientX, e.clientY)`. -/
theorem handleMouseMoveCall_cases (s : State) (env : Env) (x y : ℚ) :
    handleMouseMoveCall s env x y = some (x, y) ∨ handleMouseMoveCall s env x y = none := by
  unfold handleMouseMoveCall
  split_ifs <;> simp <;> exact em _

/-- The only call `handleTouchMove` can make is `moveButton` at the touch point. -/
theorem handleTouchMoveCall_cases (s : State) (env : Env) (x y : ℚ) :
    handleTouchMoveCall s env x y = some (x, y) ∨ handleTouchMoveCall s env x y = none := by
  unfold handleTouchMoveCall
  split_ifs <;> simp

/-- C3: `handleMouseMove` calls `moveButton` (with the pointer coordinates)
exactly when the button is not fixed and the Euclidean distance from the
pointer to the centre of the button's rectangle is strictly below the trigger
distance (100 px, 80 px on a touch device); `handleTouchMove` does so with
80 px; each handler is the state change of the call it makes, and at a distance
equal to or above the threshold it leaves the state unchanged. -/
theorem move_handlers_call_iff (s : State) (env : Env) (rnd : ℕ → ℚ × ℚ) (x y : ℚ) :
    (handleMouseMoveCall s env x y = some (x, y) ↔
        s.isFixed = false ∧
          Real.sqrt (((x : ℝ) - ((env.rect.left : ℝ) + (env.rect.width : ℝ) / 2)) ^ 2 +
            ((y : ℝ) - ((env.rect.top : ℝ) + (env.rect.height : ℝ) / 2)) ^ 2)
            < (if env.touch then 80 else 100)) ∧
      (handleTouchMoveCall s env x y = some (x, y) ↔
        s.isFixed = false ∧
          Real.sqrt (((x : ℝ) - ((env.rect.left : ℝ) + (env.rect.width : ℝ) / 2)) ^ 2 +
            ((y : ℝ) - ((env.rect.top : ℝ) + (env.rect.height : ℝ) / 2)) ^ 2) < 80) ∧
      (handleMouseMoveCall s env x y = some (x, y) ∨ handleMouseMoveCall s env x y = none) ∧
      (handleTouchMoveCall s env x y = some (x, y) ∨ handleTouchMoveCall s env x y = none) ∧
      (handleMouseMoveCall s env x y = some (x, y) →
        handleMouseMove s env rnd x y = moveButton s env rnd x y) ∧
      (handleTouchMoveCall s env x y = some (x, y) →
        handleTouchMove s env rnd x y = moveButton s env rnd x y) ∧
      (handleMouseMoveCall s env x y = none → handleMouseMove s env rnd x y = s) ∧
      (handleTouchMoveCall s env x y = none → handleTouchMove s env rnd x y = s) := by
  have hd := getDistanceSq_cast x y env.rect
  refine ⟨?_, ?_, ?_, ?_, ?_, ?_, ?_, ?_⟩
  · rw [← hd]
    cases hf : s.isFixed
    · cases ht : env.touch
      · have := sqrtLt_iff_real (getDistanceSq x y env.rect) triggerDistance
        simp only [triggerDistance] at this
        by_cases hc : sqrtLt (getDistanceSq x y env.rect) 100
        · have h2 := this.mp hc
          simp [handleMouseMoveCall, hf, ht, triggerDistance, hc]
          exact_mod_cast h2
        · have h2 : ¬ _ := fun h => hc (this.mpr h)
          simp [handleMouseMoveCall, hf, ht, triggerDistance, hc]
          exact_mod_cast not_lt.mp h2
      · have := sqrtLt_iff_real (getDistanceSq x y env.rect) mobileTriggerDistance
        simp only [mobileTriggerDistance] at this
        by_cases hc : sqrtLt (getDistanceSq x y env.rect) 80
        · have h2 := this.mp hc
          simp [handleMouseMoveCall, hf, ht, mobileTriggerDistance, hc]
          exact_mod_cast h2
        · have h2 : ¬ _ := fun h => hc (this.mpr h)
          simp [handleMouseMoveCall, hf, ht, mobileTriggerDistance, hc]
          exact_mod_cast not_lt.mp h2
    · simp [handleMouseMoveCall, hf]
  · rw [← hd]
    cases hf : s.isFixed
    · have := sqrtLt_iff_real (getDistanceSq x y env.rect) mobileTriggerDistance
      simp only [mobileTriggerDistance] at this
      by_cases hc : sqrtLt (getDistanceSq x y env.rect) 80
      · have h2 := this.mp hc
        simp [handleTouchMoveCall, hf, mobileTriggerDistance, hc]
        exact_mod_cast h2
      · have h2 : ¬ _ := fun h => hc (this.mpr h)
        simp [handleTouchMoveCall, hf, mobileTriggerDistance, hc]
        exact_mod_cast not_lt.mp h2
    · simp [handleTouchMoveCall, hf]
  · exact handleMouseMoveCall_cases s env x y
  · exact handleTouchMoveCall_cases s env x y
  · intro h
    simp [handleMouseMove, h, runCall]
  · intro h
    simp [handleTouchMove, h, runCall]
  · intro h
    simp [handleMouseMove, h, runCall]
  · intro h
    simp [handleTouchMove, h, runCall]

/-! ## `getRandomPosition` -/

/-- C4 (as stated, refuted): in a viewport 100 px wide a button 80 px wide gets,
for the draw 0, the position `x = 20`, which is beyond
`viewport.width - button.width - padding = 0`. -/
theorem getRandomPosition_narrow_viewport_out_of_bounds :
    (0 : ℚ) ≤ 0 ∧ (0 : ℚ) < 1 ∧
      (getRandomPosition ⟨100, 600⟩ ⟨0, 0, 80, 40⟩ 0 0).x = 20 ∧
      ¬ ((getRandomPosition ⟨100, 600⟩ ⟨0, 0, 80, 40⟩ 0 0).x ≤ 100 - 80 - padding) := by
  norm_num [getRandomPosition, padding]

/-- C4 (amended): when the viewport is at least as wide as the button plus
twice the padding, and at least as high as the button plus twice the padding,
every pair of draws in `[0, 1)` gives a position with
`padding ≤ x ≤ viewport.width - button.width - padding` and
`padding ≤ y ≤ viewport.height - button.height - padding`. -/
theorem getRandomPosition_in_bounds (viewport : Viewport) (buttonRect : Rect) (rx ry : ℚ)
    (hrx : 0 ≤ rx ∧ rx < 1) (hry : 0 ≤ ry ∧ ry < 1)
    (hw : buttonRect.width + 2 * padding ≤ viewport.width)
    (hh : buttonRect.height + 2 * padding ≤ viewport.height) :
    padding ≤ (getRandomPosition viewport buttonRect rx ry).x ∧
      (getRandomPosition viewport buttonRect rx ry).x
        ≤ viewport.width - buttonRect.width - padding ∧
      padding ≤ (getRandomPosition viewport buttonRect rx ry).y ∧
      (getRandomPosition viewport buttonRect rx ry).y
        ≤ viewport.height - buttonRect.height - padding := by
  have key : ∀ r m : ℚ, 0 ≤ r → r < 1 → 0 ≤ m → 0 ≤ r * m ∧ r * m ≤ m := by
    intro r m h0 h1 hm
    exact ⟨mul_nonneg h0 hm, mul_le_of_le_one_left hm h1.le⟩
  have hx := key rx (viewport.width - buttonRect.width - padding - padding) hrx.1 hrx.2
    (by linarith)
  have hy := key ry (viewport.height - buttonRect.height - padding - padding) hry.1 hry.2
    (by linarith)
  simp only [getRandomPosition]
  refine ⟨?_, ?_, ?_, ?_⟩ <;> linarith [hx.1, hx.2, hy.1, hy.2]

/-- Witness for `getRandomPosition_in_bounds`: a 1280 x 720 viewport, a
100 x 40 button and the draws `1/4`, `3/4`. -/
theorem getRandomPosition_in_bounds_witness :
    padding ≤ (getRandomPosition ⟨1280, 720⟩ ⟨0, 0, 100, 40⟩ (1 / 4) (3 / 4)).x ∧
      (getRandomPosition ⟨1280, 720⟩ ⟨0, 0, 100, 40⟩ (1 / 4) (3 / 4)).x
        ≤ 1280 - 100 - padding ∧
      padding ≤ (getRandomPosition ⟨1280, 720⟩ ⟨0, 0, 100, 40⟩ (1 / 4) (3 / 4)).y ∧
      (getRandomPosition ⟨1280, 720⟩ ⟨0, 0, 100, 40⟩ (1 / 4) (3 / 4)).y
        ≤ 720 - 40 - padding :=
  getRandomPosition_in_bounds ⟨1280, 720⟩ ⟨0, 0, 100, 40⟩ (1 / 4) (3 / 4)
    (by norm_num) (by norm_num) (by norm_num [padding]) (by norm_num [padding])

/-! ## The retry loop of `moveButton` -/

/-- The loop's `break` test on a position: `distance > triggerDistance * 1.5`. -/
theorem far_iff_real (pos : Pos) (px py : ℚ) :
    sqrtGt (pointerDistSq pos px py) (triggerDistance * (3 / 2)) ↔
      (150 : ℝ) < Real.sqrt (((pos.x : ℝ) - (px : ℝ)) ^ 2 + ((pos.y : ℝ) - (py : ℝ)) ^ 2) := by
  rw [sqrtGt_iff_real]
  have h1 : ((triggerDistance * (3 / 2) : ℚ) : ℝ) = 150 := by
    norm_num [triggerDistance]
  have h2 : ((pointerDistSq pos px py : ℚ) : ℝ)
      = ((pos.x : ℝ) - (px : ℝ)) ^ 2 + ((pos.y : ℝ) - (py : ℝ)) ^ 2 := by
    simp [pointerDistSq]
  rw [h1, h2]

/-- The loop entered at `attempts = a` with the `a`-th candidate stops at the
first candidate of index `k ≥ a` that passes the distance test, or at index
`maxAttempts` when none of the indices below it passes. -/
theorem retryLoop_spec (env : Env) (rnd : ℕ → ℚ × ℚ) (px py : ℚ) :
    ∀ (n a : ℕ), a + n = maxAttempts →
      ∃ k, a ≤ k ∧ k ≤ maxAttempts ∧
        retryLoop env rnd px py a (candidate env rnd a) = candidate env rnd k ∧
        (∀ j, a ≤ j → j < k →
          ¬ sqrtGt (pointerDistSq (candidate env rnd j) px py) (triggerDistance * (3 / 2))) ∧
        (k < maxAttempts →
          sqrtGt (pointerDistSq (candidate env rnd k) px py) (triggerDistance * (3 / 2))) := by
  intro n
  induction n with
  | zero =>
    intro a ha
    refine ⟨a, le_refl _, by omega, ?_, ?_, ?_⟩
    · rw [retryLoop]
      have : ¬ a < maxAttempts := by omega
      simp [this]
    · intro j h1 h2
      omega
    · intro h
      omega
  | succ n ih =>
    intro a ha
    have hlt : a < maxAttempts := by omega
    by_cases hfar :
        sqrtGt (pointerDistSq (candidate env rnd a) px py) (triggerDistance * (3 / 2))
    · refine ⟨a, le_refl _, by omega, ?_, ?_, ?_⟩
      · rw [retryLoop]
        simp [hlt, hfar]
      · intro j h1 h2
        omega
      · intro _
        exact hfar
    · obtain ⟨k, hk1, hk2, hk3, hk4, hk5⟩ := ih (a + 1) (by omega)
      refine ⟨k, by omega, hk2, ?_, ?_, hk5⟩
      · rw [retryLoop]
        simp [hlt, hfar, hk3]
      · intro j h1 h2
        by_cases hja : j = a
        · subst hja
          exact hfar
        · exact hk4 j (by omega) h2

/-- C5 (as stated, refuted): in a 300 x 200 viewport with an 80 x 40 button,
the pointer at (150, 100) and every draw equal to 1/2, `moveButton` assigns the
position (110, 80), whose distance to the pointer is not more than 150 px. -/
theorem moveButton_assigns_near_pointer :
    (moveButton initial ⟨⟨300, 200⟩, ⟨110, 80, 80, 40⟩, false⟩
        (fun _ => (1 / 2, 1 / 2)) 150 100).left = some 110 ∧
      (moveButton initial ⟨⟨300, 200⟩, ⟨110, 80, 80, 40⟩, false⟩
        (fun _ => (1 / 2, 1 / 2)) 150 100).top = some 80 ∧
      ¬ ((150 : ℝ) < Real.sqrt (((110 : ℝ) - 150) ^ 2 + ((80 : ℝ) - 100) ^ 2)) := by
  have hc : ∀ k, candidate ⟨⟨300, 200⟩, ⟨110, 80, 80, 40⟩, false⟩
      (fun _ => ((1 : ℚ) / 2, (1 : ℚ) / 2)) k = ⟨110, 80⟩ := by
    intro k
    norm_num [candidate, getRandomPosition, padding]
  obtain ⟨k, -, -, hk, -, -⟩ := retryLoop_spec ⟨⟨300, 200⟩, ⟨110, 80, 80, 40⟩, false⟩
    (fun _ => ((1 : ℚ) / 2, (1 : ℚ) / 2)) 150 100 maxAttempts 0 (by simp)
  rw [hc k] at hk
  simp only [one_div] at hk
  refine ⟨?_, ?_, ?_⟩
  · simp [moveButton, initial, hk]
  · simp [moveButton, initial, hk]
  · rw [not_lt, Real.sqrt_le_left (by norm_num)]
    norm_num

/-- C5 (amended): whenever `moveButton` relocates the button (it is neither
dodging nor fixed), the position it assigns is the first of the first 10
random candidates that is more than 150 px from the pointer; when none of
these 10 is, the 11th candidate is assigned without a distance test. -/
theorem moveButton_position (s : State) (env : Env) (rnd : ℕ → ℚ × ℚ) (px py : ℚ)
    (hd : s.isDodging = false) (hf : s.isFixed = false) :
    let dist : Pos → ℝ := fun pos =>
      Real.sqrt (((pos.x : ℝ) - (px : ℝ)) ^ 2 + ((pos.y : ℝ) - (py : ℝ)) ^ 2)
    ∃ k, k ≤ 10 ∧
      (moveButton s env rnd px py).left = some (candidate env rnd k).x ∧
      (moveButton s env rnd px py).top = some (candidate env rnd k).y ∧
      (∀ j, j < k → dist (candidate env rnd j) ≤ 150) ∧
      (k < 10 → 150 < dist (candidate env rnd k)) := by
  intro dist
  obtain ⟨k, -, hk2, hk3, hk4, hk5⟩ := retryLoop_spec env rnd px py maxAttempts 0 (by simp)
  refine ⟨k, hk2, ?_, ?_, ?_, ?_⟩
  · simp [moveButton, hd, hf, hk3]
  · simp [moveButton, hd, hf, hk3]
  · intro j hj
    have := hk4 j (Nat.zero_le _) hj
    rw [far_iff_real] at this
    exact not_lt.mp this
  · intro h
    have := hk5 h
    rw [far_iff_real] at this
    exact this

/-- Witness for `moveButton_position`: the first dodge on a 1280 x 720
viewport. -/
theorem moveButton_position_witness :
    initial.isDodging = false ∧ initial.isFixed = false ∧
      ∃ k, k ≤ 10 ∧
        (moveButton initial ⟨⟨1280, 720⟩, ⟨600, 400, 100, 40⟩, false⟩
          (fun _ => (1 / 4, 3 / 4)) 640 410).left
          = some (candidate ⟨⟨1280, 720⟩, ⟨600, 400, 100, 40⟩, false⟩
              (fun _ => (1 / 4, 3 / 4)) k).x :=
  ⟨rfl, rfl,
    (moveButton_position initial ⟨⟨1280, 720⟩, ⟨600, 400, 100, 40⟩, false⟩
      (fun _ => (1 / 4, 3 / 4)) 640 410 rfl rfl).imp (fun _ h => ⟨h.1, h.2.1⟩)⟩

end Dodge

namespace Dodge

/-! ## The dodge counter -/

/-- What `moveButton` does to the counter and the flags when its guard lets it
through. -/
theorem moveButton_pass (s : State) (env : Env) (rnd : ℕ → ℚ × ℚ) (px py : ℚ)
    (hd : s.isDodging = false) (hf : s.isFixed = false) :
    (moveButton s env rnd px py).dodgeCount = s.dodgeCount + 1 ∧
      (moveButton s env rnd px py).isFixed = decide (maxDodges ≤ s.dodgeCount + 1) ∧
      (moveButton s env rnd px py).shrinking
        = (decide (maxDodges ≤ s.dodgeCount + 1) || s.shrinking) ∧
      (moveButton s env rnd px py).hintText
        = (if maxDodges ≤ s.dodgeCount + 1 then some finalHint
            else if s.dodgeCount + 1 ≤ hints.length then hints.get? s.dodgeCount
            else s.hintText) := by
  refine ⟨?_, ?_, ?_, ?_⟩
  · simp [moveButton, hd, hf]
  · by_cases h : maxDodges ≤ s.dodgeCount + 1 <;> simp [moveButton, hd, hf, h]
  · by_cases h : maxDodges ≤ s.dodgeCount + 1 <;> simp [moveButton, hd, hf, h]
  · by_cases h : maxDodges ≤ s.dodgeCount + 1 <;> simp [moveButton, hd, hf, h]

/-- A blocked `moveButton` call changes nothing. -/
theorem moveButton_blocked (s : State) (env : Env) (rnd : ℕ → ℚ × ℚ) (px py : ℚ)
    (h : s.isDodging = true ∨ s.isFixed = true) : moveButton s env rnd px py = s := by
  rcases h with h | h <;> simp [moveButton, h]

/-- Every event either leaves the state as it is, runs `moveButton`, runs the
timer callback or runs `handleResize`. -/
theorem step_cases (s : State) (env : Env) (rnd : ℕ → ℚ × ℚ) (e : Event) :
    step s env rnd e = s ∨ (∃ px py, step s env rnd e = moveButton s env rnd px py) ∨
      step s env rnd e = dodgeTimeout s ∨ step s env rnd e = handleResize s env := by
  cases e with
  | mouseMove x y =>
    rcases handleMouseMoveCall_cases s env x y with h | h
    · exact Or.inr (Or.inl ⟨x, y, by simp [step, handleMouseMove, h, runCall]⟩)
    · exact Or.inl (by simp [step, handleMouseMove, h, runCall])
  | touchStart x y =>
    simp only [step, handleTouchStart]
    split_ifs
    · exact Or.inl rfl
    · exact Or.inr (Or.inl ⟨x, y, rfl⟩)
  | touchMove x y =>
    rcases handleTouchMoveCall_cases s env x y with h | h
    · exact Or.inr (Or.inl ⟨x, y, by simp [step, handleTouchMove, h, runCall]⟩)
    · exact Or.inl (by simp [step, handleTouchMove, h, runCall])
  | click x y =>
    simp only [step, handleClick]
    split_ifs
    · exact Or.inr (Or.inl ⟨x, y, rfl⟩)
    · exact Or.inl rfl
  | timeout => exact Or.inr (Or.inr (Or.inl rfl))
  | resize => exact Or.inr (Or.inr (Or.inr rfl))

theorem counterInv_moveButton (s : State) (env : Env) (rnd : ℕ → ℚ × ℚ) (px py : ℚ)
    (h : CounterInv s) : CounterInv (moveButton s env rnd px py) := by
  by_cases hg : s.isDodging = true ∨ s.isFixed = true
  · rw [moveButton_blocked s env rnd px py hg]
    exact h
  · have hd : s.isDodging = false := by
      cases hv : s.isDodging
      · rfl
      · exact absurd (Or.inl hv) hg
    have hf : s.isFixed = false := by
      cases hv : s.isFixed
      · rfl
      · exact absurd (Or.inr hv) hg
    obtain ⟨h1, h2, h3⟩ := h
    obtain ⟨p1, p2, p3, -⟩ := moveButton_pass s env rnd px py hd hf
    have hlt : s.dodgeCount < maxDodges := by
      by_contra hc
      have : s.isFixed = true := h2.mpr (not_lt.mp hc)
      rw [hf] at this
      exact Bool.noConfusion this
    refine ⟨?_, ?_, ?_⟩
    · rw [p1]
      exact hlt
    · rw [p1, p2]
      simp
    · rw [p3, p2, h3, hf]
      simp

theorem counterInv_step (s : State) (env : Env) (rnd : ℕ → ℚ × ℚ) (e : Event)
    (h : CounterInv s) : CounterInv (step s env rnd e) := by
  rcases step_cases s env rnd e with hs | ⟨px, py, hs⟩ | hs | hs
  · rw [hs]
    exact h
  · rw [hs]
    exact counterInv_moveButton s env rnd px py h
  · rw [hs]
    unfold dodgeTimeout
    split_ifs
    · exact h
    · exact h
  · rw [hs]
    unfold handleResize
    split_ifs
    · exact h
    · exact h

theorem counterInv_reachable (s : State) (h : Reachable s) : CounterInv s := by
  induction h with
  | init => simp [CounterInv, initial, maxDodges]
  | step env rnd e _ ih => exact counterInv_step _ env rnd e ih

/-- Handling a list of events keeps the state reachable. -/
theorem reachable_runEvents (s : State) (env : Env) (rnd : ℕ → ℚ × ℚ) (es : List Event)
    (h : Reachable s) : Reachable (runEvents s env rnd es) := by
  induction es generalizing s with
  | nil => exact h
  | cons e es ih => exact ih (step s env rnd e) (Reachable.step env rnd e h)

/-- The session `fiveClicks` from the initial state: all five clicks dodge, the
button ends fixed and the hint is the final one. -/
theorem five_clicks_run (rnd : ℕ → ℚ × ℚ) :
    (runEvents initial desktopEnv rnd fiveClicks).dodgeCount = 5 ∧
      (runEvents initial desktopEnv rnd fiveClicks).isFixed = true ∧
      (runEvents initial desktopEnv rnd fiveClicks).hintText = some finalHint := by
  refine ⟨?_, ?_, ?_⟩ <;>
    simp [runEvents, fiveClicks, step, handleClick, moveButton, dodgeTimeout, initial,
      maxDodges, hints]

/-- C6: in every state reachable from the initial state through the event
handlers (mouse move, touch start, touch move, click, expiry of the dodge
timer, and also resize), `dodgeCount ≤ maxDodges = 5`, `isFixed` holds exactly
when `dodgeCount ≥ maxDodges` and exactly when the button carries the
`shrinking` class; and once the button is fixed no event changes `dodgeCount`
or `isFixed`, and no pointer, click or timer event changes its position. -/
theorem dodge_counter_invariant (s : State) (h : Reachable s) :
    s.dodgeCount ≤ 5 ∧ (s.isFixed = true ↔ 5 ≤ s.dodgeCount) ∧
      (s.shrinking = true ↔ s.isFixed = true) ∧
      (s.isFixed = true → ∀ (env : Env) (rnd : ℕ → ℚ × ℚ) (e : Event),
        (step s env rnd e).dodgeCount = s.dodgeCount ∧
          (step s env rnd e).isFixed = true ∧
          (e ≠ Event.resize →
            (step s env rnd e).left = s.left ∧ (step s env rnd e).top = s.top)) := by
  obtain ⟨h1, h2, h3⟩ := counterInv_reachable s h
  refine ⟨h1, h2, by rw [h3], ?_⟩
  intro hfix env rnd e
  rcases step_cases s env rnd e with hs | ⟨px, py, hs⟩ | hs | hs
  · rw [hs]
    exact ⟨rfl, hfix, fun _ => ⟨rfl, rfl⟩⟩
  · rw [hs, moveButton_blocked s env rnd px py (Or.inr hfix)]
    exact ⟨rfl, hfix, fun _ => ⟨rfl, rfl⟩⟩
  · rw [hs]
    unfold dodgeTimeout
    split_ifs
    · exact ⟨rfl, hfix, fun _ => ⟨rfl, rfl⟩⟩
    · exact ⟨rfl, hfix, fun _ => ⟨rfl, rfl⟩⟩
  · cases e with
    | resize =>
      rw [hs]
      unfold handleResize
      split_ifs
      · exact ⟨rfl, hfix, fun hne => absurd rfl hne⟩
      · exact ⟨rfl, hfix, fun hne => absurd rfl hne⟩
    | mouseMove x y =>
      have : step s env rnd (Event.mouseMove x y) = s := by
        simp [step, handleMouseMove, handleMouseMoveCall, hfix, runCall]
      rw [this]
      exact ⟨rfl, hfix, fun _ => ⟨rfl, rfl⟩⟩
    | touchStart x y =>
      have : step s env rnd (Event.touchStart x y) = s := by
        simp [step, handleTouchStart, hfix]
      rw [this]
      exact ⟨rfl, hfix, fun _ => ⟨rfl, rfl⟩⟩
    | touchMove x y =>
      have : step s env rnd (Event.touchMove x y) = s := by
        simp [step, handleTouchMove, handleTouchMoveCall, hfix, runCall]
      rw [this]
      exact ⟨rfl, hfix, fun _ => ⟨rfl, rfl⟩⟩
    | click x y =>
      have : step s env rnd (Event.click x y) = s := by
        simp only [step, handleClick]
        split_ifs
        · exact moveButton_blocked s env rnd x y (Or.inr hfix)
        · rfl
      rw [this]
      exact ⟨rfl, hfix, fun _ => ⟨rfl, rfl⟩⟩
    | timeout =>
      have : step s env rnd Event.timeout = dodgeTimeout s := rfl
      rw [this]
      unfold dodgeTimeout
      split_ifs
      · exact ⟨rfl, hfix, fun _ => ⟨rfl, rfl⟩⟩
      · exact ⟨rfl, hfix, fun _ => ⟨rfl, rfl⟩⟩

/-- Witness for `dodge_counter_invariant`: the state after five clicks is
reachable and fixed, with `dodgeCount = 5`. -/
theorem dodge_counter_invariant_witness :
    Reachable (runEvents initial desktopEnv (fun _ => (0, 0)) fiveClicks) ∧
      (runEvents initial desktopEnv (fun _ => (0, 0)) fiveClicks).isFixed = true ∧
      (runEvents initial desktopEnv (fun _ => (0, 0)) fiveClicks).dodgeCount ≤ 5 :=
  ⟨reachable_runEvents _ _ _ _ Reachable.init,
    (five_clicks_run (fun _ => (0, 0))).2.1,
    (dodge_counter_invariant _ (reachable_runEvents _ _ _ _ Reachable.init)).1⟩

/-! ## The hint text -/

/-- C7 (evaluated on the code): after five successful dodges (five clicks, the
timer expiring in between; `dodgeCount = 5`) the hint text is
"Just click YES already! 💕" and not `hints[4]`, the last entry of the list
of hints to show after dodges, which `moveButton` writes and overwrites in the
same call. -/
theorem hint_after_fifth_dodge_not_last_hint :
    (runEvents initial desktopEnv (fun _ => (0, 0)) fiveClicks).dodgeCount = 5 ∧
      (runEvents initial desktopEnv (fun _ => (0, 0)) fiveClicks).hintText
        = some "Just click YES already! 💕" ∧
      hints.get? (5 - 1) = some "Okay okay, just click YES! 💕" ∧
      (runEvents initial desktopEnv (fun _ => (0, 0)) fiveClicks).hintText
        ≠ hints.get? (5 - 1) := by
  obtain ⟨h1, -, h3⟩ := five_clicks_run (fun _ => (0, 0))
  refine ⟨h1, ?_, ?_, ?_⟩
  · rw [h3]
    rfl
  · rfl
  · rw [h3]
    decide

/-- The hint text left by the `k`-th successful dodge, i.e. by the `moveButton`
call that passes its guard with `dodgeCount = k - 1`: for every `k` from 1 to 4
it is `hints[k - 1]`; for `k = 5` the later assignment of the final message
wins over `hints[4]`. -/
theorem hint_after_kth_dodge (s : State) (env : Env) (rnd : ℕ → ℚ × ℚ) (px py : ℚ) (k : ℕ)
    (hd : s.isDodging = false) (hf : s.isFixed = false) (hk : s.dodgeCount + 1 = k) :
    (moveButton s env rnd px py).dodgeCount = k ∧
      (1 ≤ k → k ≤ 4 →
        ∃ h, hints.get? (k - 1) = some h ∧ (moveButton s env rnd px py).hintText = some h) ∧
      (k = 5 → (moveButton s env rnd px py).hintText = some "Just click YES already! 💕") := by
  obtain ⟨p1, -, -, p4⟩ := moveButton_pass s env rnd px py hd hf
  refine ⟨by rw [p1, hk], ?_, ?_⟩
  · intro h1 h4
    have hlen : hints.length = 5 := rfl
    have hlt : k - 1 < hints.length := by omega
    refine ⟨hints.get ⟨k - 1, hlt⟩, List.get?_eq_get hlt, ?_⟩
    rw [p4, hk]
    have h5 : ¬ maxDodges ≤ k := by
      simp only [maxDodges]
      omega
    have h6 : k ≤ hints.length := by omega
    have h7 : s.dodgeCount = k - 1 := by omega
    simp only [h5, h6, if_true, if_false, h7]
    exact List.get?_eq_get hlt
  · intro h5
    rw [p4, hk, h5]
    rfl

/-- An instance of `hint_after_kth_dodge`: the first dodge shows `hints[0]`. -/
theorem hint_after_kth_dodge_witness :
    initial.isDodging = false ∧ initial.isFixed = false ∧ initial.dodgeCount + 1 = 1 ∧
      ∃ h, hints.get? (1 - 1) = some h ∧
        (moveButton initial desktopEnv (fun _ => (0, 0)) 640 410).hintText = some h :=
  ⟨rfl, rfl, rfl,
    (hint_after_kth_dodge initial desktopEnv (fun _ => (0, 0)) 640 410 1 rfl rfl rfl).2.1
      (le_refl 1) (by decide)⟩

end Dodge

namespace Confetti

/-! ## `Particle.update` -/

/-- The two branches of the last `if` of `update`. -/
theorem update_eq (canvas : Canvas) (g : ℚ) (sinF : ℚ → ℚ) (rnd : ℕ → ℚ) (p : Particle) :
    (offScreen canvas (advance canvas g sinF p) → update canvas g sinF rnd p = reset canvas rnd) ∧
      (¬ offScreen canvas (advance canvas g sinF p) →
        update canvas g sinF rnd p = advance canvas g sinF p) := by
  constructor <;> intro h <;> simp [update, h]

/-- Where `reset` puts a particle, for draws in `[0, 1)`. -/
theorem reset_position (canvas : Canvas) (rnd : ℕ → ℚ) (hr : UnitDraws rnd)
    (hW : 0 ≤ canvas.width) (hH : 0 ≤ canvas.height) :
    0 ≤ (reset canvas rnd).x ∧ (reset canvas rnd).x ≤ canvas.width ∧
      -canvas.height ≤ (reset canvas rnd).y ∧ (reset canvas rnd).y ≤ 0 := by
  obtain ⟨a0, a1⟩ := hr 0
  obtain ⟨b0, b1⟩ := hr 1
  simp only [reset]
  refine ⟨mul_nonneg a0 hW, mul_le_of_le_one_left hW a1.le, ?_, ?_⟩
  · have := mul_le_of_le_one_left hH b1.le
    linarith
  · have := mul_nonneg b0 hH
    linarith

/-- C8: on a canvas of width `W ≥ 0` and height `H ≥ 0`, for every particle
state (and every gravity, every value of the sine, every draws in `[0, 1)`),
after `update` the particle has `-50 ≤ x ≤ W + 50` and `y ≤ H + 50`; `update`
recycles the particle (`reset`, which puts `x` in `[0, W]` and `y` in
`[-H, 0]`) when its moved position has `y > H + 50`, `x < -50` or
`x > W + 50`, and otherwise keeps the moved position. -/
theorem update_within_bounds (canvas : Canvas) (g : ℚ) (sinF : ℚ → ℚ) (rnd : ℕ → ℚ)
    (p : Particle) (hW : 0 ≤ canvas.width) (hH : 0 ≤ canvas.height) (hr : UnitDraws rnd) :
    (-50 ≤ (update canvas g sinF rnd p).x ∧
        (update canvas g sinF rnd p).x ≤ canvas.width + 50 ∧
        (update canvas g sinF rnd p).y ≤ canvas.height + 50) ∧
      ((p.y + min (p.vy + g) 5 > canvas.height + 50 ∨
          p.x + (p.vx + sinF p.wobble * 2) < -50 ∨
          p.x + (p.vx + sinF p.wobble * 2) > canvas.width + 50) →
        update canvas g sinF rnd p = reset canvas rnd ∧
          0 ≤ (update canvas g sinF rnd p).x ∧
          (update canvas g sinF rnd p).x ≤ canvas.width ∧
          -canvas.height ≤ (update canvas g sinF rnd p).y ∧
          (update canvas g sinF rnd p).y ≤ 0) ∧
      (¬ (p.y + min (p.vy + g) 5 > canvas.height + 50 ∨
          p.x + (p.vx + sinF p.wobble * 2) < -50 ∨
          p.x + (p.vx + sinF p.wobble * 2) > canvas.width + 50) →
        update canvas g sinF rnd p = advance canvas g sinF p ∧
          (update canvas g sinF rnd p).x = p.x + (p.vx + sinF p.wobble * 2) ∧
          (update canvas g sinF rnd p).y = p.y + min (p.vy + g) 5) := by
  have hoff : offScreen canvas (advance canvas g sinF p) ↔
      (p.y + min (p.vy + g) 5 > canvas.height + 50 ∨
        p.x + (p.vx + sinF p.wobble * 2) < -50 ∨
        p.x + (p.vx + sinF p.wobble * 2) > canvas.width + 50) := by
    simp [offScreen, advance, terminalVelocity]
  obtain ⟨u1, u2⟩ := update_eq canvas g sinF rnd p
  obtain ⟨r1, r2, r3, r4⟩ := reset_position canvas rnd hr hW hH
  have hrec : (p.y + min (p.vy + g) 5 > canvas.height + 50 ∨
        p.x + (p.vx + sinF p.wobble * 2) < -50 ∨
        p.x + (p.vx + sinF p.wobble * 2) > canvas.width + 50) →
      update canvas g sinF rnd p = reset canvas rnd ∧
        0 ≤ (update canvas g sinF rnd p).x ∧
        (update canvas g sinF rnd p).x ≤ canvas.width ∧
        -canvas.height ≤ (update canvas g sinF rnd p).y ∧
        (update canvas g sinF rnd p).y ≤ 0 := by
    intro h
    have e := u1 (hoff.mpr h)
    rw [e]
    exact ⟨rfl, r1, r2, r3, r4⟩
  have hkeep : ¬ (p.y + min (p.vy + g) 5 > canvas.height + 50 ∨
        p.x + (p.vx + sinF p.wobble * 2) < -50 ∨
        p.x + (p.vx + sinF p.wobble * 2) > canvas.width + 50) →
      update canvas g sinF rnd p = advance canvas g sinF p ∧
        (update canvas g sinF rnd p).x = p.x + (p.vx + sinF p.wobble * 2) ∧
        (update canvas g sinF rnd p).y = p.y + min (p.vy + g) 5 := by
    intro h
    have e := u2 (fun hc => h (hoff.mp hc))
    rw [e]
    exact ⟨rfl, by simp [advance], by simp [advance, terminalVelocity]⟩
  refine ⟨?_, hrec, hkeep⟩
  by_cases h : (p.y + min (p.vy + g) 5 > canvas.height + 50 ∨
        p.x + (p.vx + sinF p.wobble * 2) < -50 ∨
        p.x + (p.vx + sinF p.wobble * 2) > canvas.width + 50)
  · obtain ⟨-, a, b, -, d⟩ := hrec h
    exact ⟨by linarith, by linarith, by linarith⟩
  · obtain ⟨-, a, b⟩ := hkeep h
    rw [a, b]
    simp only [not_or, not_lt, gt_iff_lt] at h
    exact ⟨h.2.1, h.2.2, h.1⟩

/-- Witness for `update_within_bounds`: a particle at (400, 648) on an
800 x 600 canvas falls past `H + 50` and is recycled. -/
theorem update_within_bounds_witness :
    update ⟨800, 600⟩ (3 / 10) (fun _ => 0) (fun _ => 0)
        ⟨400, 648, 4, 0, 5, 0, 0, none, none, 0, 0, 0⟩
      = reset ⟨800, 600⟩ (fun _ => 0) :=
  ((update_within_bounds ⟨800, 600⟩ (3 / 10) (fun _ => 0) (fun _ => 0)
      ⟨400, 648, 4, 0, 5, 0, 0, none, none, 0, 0, 0⟩ (by norm_num) (by norm_num)
      (fun _ => ⟨le_refl 0, by norm_num⟩)).2.1 (Or.inl (by norm_num))).1

/-- C10: after every `update` the vertical velocity is at most
`terminalVelocity = 5`, whatever `vy` was before the call and whatever the
current gravity (draws in `[0, 1)` for the `reset` that `update` may call). -/
theorem update_vy_le_terminalVelocity (canvas : Canvas) (g : ℚ) (sinF : ℚ → ℚ)
    (rnd : ℕ → ℚ) (p : Particle) (hr : UnitDraws rnd) :
    (update canvas g sinF rnd p).vy ≤ 5 := by
  obtain ⟨u1, u2⟩ := update_eq canvas g sinF rnd p
  by_cases h : offScreen canvas (advance canvas g sinF p)
  · rw [u1 h]
    have := (hr 4).2
    simp only [reset]
    linarith
  · rw [u2 h]
    simp only [advance, terminalVelocity]
    exact min_le_right _ _

/-- Witness for `update_vy_le_terminalVelocity`: a particle that `burst` gave
`vy = 7.5`. -/
theorem update_vy_le_terminalVelocity_witness :
    UnitDraws (fun _ => 0) ∧
      (update ⟨800, 600⟩ (3 / 10) (fun _ => 0) (fun _ => 0)
        ⟨400, -10, 4, 0, 15 / 2, 0, 0, none, none, 0, 0, 1⟩).vy ≤ 5 :=
  ⟨fun _ => ⟨le_refl 0, by norm_num⟩,
    update_vy_le_terminalVelocity ⟨800, 600⟩ (3 / 10) (fun _ => 0) (fun _ => 0)
      ⟨400, -10, 4, 0, 15 / 2, 0, 0, none, none, 0, 0, 1⟩ (fun _ => ⟨le_refl 0, by norm_num⟩)⟩

/-! ## Opacity -/

/-- Repeated `update` keeps a particle reachable. -/
theorem reachable_iterate_update (canvas : Canvas) (sinF : ℚ → ℚ) (g : ℚ)
    (hg : GravityRange g) (rnd : ℕ → ℚ) (hr : UnitDraws rnd) (p : Particle)
    (h : Reachable canvas sinF p) (n : ℕ) :
    Reachable canvas sinF ((update canvas g sinF rnd)^[n] p) := by
  induction n with
  | zero => exact h
  | succ n ih =>
    rw [Function.iterate_succ_apply']
    exact Reachable.update g hg rnd hr ih

/-- In every reachable particle state the opacity lies in `[0, 1]`. -/
theorem opacity_unit_interval (canvas : Canvas) (sinF : ℚ → ℚ) (p : Particle)
    (h : Reachable canvas sinF p) : 0 ≤ p.opacity ∧ p.opacity ≤ 1 := by
  induction h with
  | construct rnd _ => simp [reset]
  | @update q g _ rnd _ _ ih =>
    obtain ⟨u1, u2⟩ := update_eq canvas g sinF rnd q
    by_cases hoff : offScreen canvas (advance canvas g sinF q)
    · rw [u1 hoff]
      simp [reset]
    · rw [u2 hoff]
      simp only [advance]
      split_ifs with hy
      · refine ⟨le_max_left _ _, max_le (by norm_num) ?_⟩
        rw [div_le_one (by norm_num)]
        linarith
      · exact ih
  | burst rnd _ _ ih => exact ih

/-- A particle launched by `burst` from the top centre of an 800 x 600 canvas
with `vy = 5` and `vx = 0` falls 5 px per frame; it is not recycled during the
first 110 frames, and once below `y = 500` its opacity is `(600 - y) / 100`. -/
theorem fall_after_burst (sinF : ℚ → ℚ) (hs : ∀ t, -1 ≤ sinF t ∧ sinF t ≤ 1)
    (rnd : ℕ → ℚ) (p : Particle) (hy : p.y = -10) (hx : p.x = 400) (hvx : p.vx = 0)
    (hvy : p.vy = 5) :
    ∀ n : ℕ, n ≤ 110 →
      ((update ⟨800, 600⟩ (3 / 10) sinF rnd)^[n] p).y = -10 + 5 * (n : ℚ) ∧
        ((update ⟨800, 600⟩ (3 / 10) sinF rnd)^[n] p).vy = 5 ∧
        ((update ⟨800, 600⟩ (3 / 10) sinF rnd)^[n] p).vx = 0 ∧
        400 - 2 * (n : ℚ) ≤ ((update ⟨800, 600⟩ (3 / 10) sinF rnd)^[n] p).x ∧
        ((update ⟨800, 600⟩ (3 / 10) sinF rnd)^[n] p).x ≤ 400 + 2 * (n : ℚ) ∧
        (500 < -10 + 5 * (n : ℚ) →
          ((update ⟨800, 600⟩ (3 / 10) sinF rnd)^[n] p).opacity
            = (600 - (-10 + 5 * (n : ℚ))) / 100) := by
  intro n
  induction n with
  | zero =>
    intro _
    refine ⟨by simp [hy], by simp [hvy], by simp [hvx], by simp [hx], by simp [hx], ?_⟩
    intro h
    norm_num at h
  | succ n ih =>
    intro hn
    obtain ⟨iy, ivy, ivx, ix1, ix2, -⟩ := ih (by omega)
    have hn' : ((n : ℚ)) + 1 ≤ 110 := by exact_mod_cast hn
    have hn0 : (0 : ℚ) ≤ (n : ℚ) := Nat.cast_nonneg n
    rw [Function.iterate_succ_apply']
    generalize (update ⟨800, 600⟩ (3 / 10) sinF rnd)^[n] p = q at iy ivy ivx ix1 ix2
    obtain ⟨s1, s2⟩ := hs q.wobble
    have hmin : min (q.vy + 3 / 10) terminalVelocity = 5 := by
      rw [ivy]
      norm_num [terminalVelocity]
    have hnot : ¬ offScreen ⟨800, 600⟩ (advance ⟨800, 600⟩ (3 / 10) sinF q) := by
      simp only [offScreen, advance, hmin, ivx, iy]
      intro h
      rcases h with h | h | h <;> linarith
    rw [(update_eq ⟨800, 600⟩ (3 / 10) sinF rnd q).2 hnot]
    simp only [advance, hmin, ivx, iy]
    push_cast
    refine ⟨by ring, trivial, trivial, by linarith, by linarith, ?_⟩
    intro h
    have hy' : -10 + 5 * (n : ℚ) + 5 > 600 - 100 := by linarith
    rw [if_pos hy']
    have : (0 : ℚ) ≤ (600 - (-10 + 5 * (n : ℚ) + 5)) / 100 := by
      apply div_nonneg _ (by norm_num)
      linarith
    rw [max_eq_right this]
    ring

/-- C9 (evaluated on the code): on an 800 x 600 canvas, whatever values in
`[-1, 1]` the sine takes, a reachable particle has `y = -10` (far above the
bottom 100 px) and opacity `3/5`: launched by `burst`, it falls for 110 frames
to `y = 540`, where `update` has faded it to `3/5`; a second `burst` (a click)
puts it back at `y = -10` without restoring its opacity. -/
theorem burst_keeps_faded_opacity (sinF : ℚ → ℚ) (hs : ∀ t, -1 ≤ sinF t ∧ sinF t ≤ 1) :
    ∃ p : Particle, Reachable ⟨800, 600⟩ sinF p ∧ p.y = -10 ∧ p.y ≤ 600 - 100 ∧
      p.opacity = 3 / 5 ∧ p.opacity ≠ 1 := by
  have hz : UnitDraws (fun _ => (0 : ℚ)) := fun _ => ⟨le_refl 0, by norm_num⟩
  have hb : UnitDraws (fun k => if k = 1 then (2 : ℚ) / 5 else 1 / 2) := by
    intro k
    by_cases h : k = 1 <;> simp [h] <;> norm_num
  have hg : GravityRange (3 / 10) := by
    constructor <;> norm_num
  have r0 : Reachable ⟨800, 600⟩ sinF
      (burst ⟨800, 600⟩ (fun k => if k = 1 then (2 : ℚ) / 5 else 1 / 2)
        (reset ⟨800, 600⟩ (fun _ => 0))) :=
    Reachable.burst _ hb (Reachable.construct _ hz)
  have hfall := fall_after_burst sinF hs (fun _ => 0)
    (burst ⟨800, 600⟩ (fun k => if k = 1 then (2 : ℚ) / 5 else 1 / 2)
      (reset ⟨800, 600⟩ (fun _ => 0)))
    (by simp [burst]) (by norm_num [burst]) (by norm_num [burst]) (by norm_num [burst])
    110 (le_refl _)
  have r1 := reachable_iterate_update ⟨800, 600⟩ sinF (3 / 10) hg (fun _ => 0) hz _ r0 110
  have hop := hfall.2.2.2.2.2 (by norm_num)
  generalize (update ⟨800, 600⟩ (3 / 10) sinF (fun _ => 0))^[110]
    (burst ⟨800, 600⟩ (fun k => if k = 1 then (2 : ℚ) / 5 else 1 / 2)
      (reset ⟨800, 600⟩ (fun _ => 0))) = q at r1 hop
  have hq : q.opacity = 3 / 5 := by
    rw [hop]
    norm_num
  refine ⟨burst ⟨800, 600⟩ (fun k => if k = 1 then (2 : ℚ) / 5 else 1 / 2) q,
    Reachable.burst _ hb r1, rfl, ?_, hq, ?_⟩
  · show (-10 : ℚ) ≤ 600 - 100
    norm_num
  · show q.opacity ≠ 1
    rw [hq]
    norm_num

/-- Witness for `burst_keeps_faded_opacity`, with the sine replaced by the
constant 0. -/
theorem burst_keeps_faded_opacity_witness :
    ∃ p : Particle, Reachable ⟨800, 600⟩ (fun _ => 0) p ∧ p.y = -10 ∧ p.y ≤ 600 - 100 ∧
      p.opacity = 3 / 5 ∧ p.opacity ≠ 1 :=
  burst_keeps_faded_opacity (fun _ => 0) (fun _ => ⟨by norm_num, by norm_num⟩)

end Confetti

namespace Dodge

/-! ## `handleResize` -/

/-- In every reachable state a button in dodging mode has its inline position
set: `moveButton` adds the class and writes `left` and `top` in the same call. -/
theorem dodging_position_set (s : State) (h : Reachable s) :
    s.dodging = true → s.left.isSome = true ∧ s.top.isSome = true := by
  induction h with
  | init => simp [initial]
  | @step s env rnd e _ ih =>
    rcases step_cases s env rnd e with hs | ⟨px, py, hs⟩ | hs | hs
    · rw [hs]
      exact ih
    · rw [hs]
      unfold moveButton
      split_ifs
      · exact ih
      · intro _
        exact ⟨rfl, rfl⟩
    · rw [hs]
      unfold dodgeTimeout
      split_ifs
      · exact ih
      · exact ih
    · rw [hs]
      unfold handleResize
      split_ifs
      · exact ih
      · intro hd
        obtain ⟨h1, h2⟩ := ih hd
        exact ⟨by simp [h1], by simp [h2]⟩

/-- C11: for every viewport with `width ≥ button.width + 2 × padding` and
`height ≥ button.height + 2 × padding`, after `handleResize` on a button in
dodging mode at inline position `(x, y)` the position `(left, top)` satisfies
`padding ≤ left ≤ viewport.width - button.width - padding` and
`padding ≤ top ≤ viewport.height - button.height - padding`; a coordinate that
was already inside its bounds is left unchanged. -/
theorem handleResize_in_bounds (s : State) (env : Env) (x y : ℚ)
    (hd : s.dodging = true) (hl : s.left = some x) (ht : s.top = some y)
    (hw : env.rect.width + 2 * padding ≤ env.viewport.width)
    (hh : env.rect.height + 2 * padding ≤ env.viewport.height) :
    ∃ left top, (handleResize s env).left = some left ∧ (handleResize s env).top = some top ∧
      padding ≤ left ∧ left ≤ env.viewport.width - env.rect.width - padding ∧
      padding ≤ top ∧ top ≤ env.viewport.height - env.rect.height - padding ∧
      (padding ≤ x → x ≤ env.viewport.width - env.rect.width - padding → left = x) ∧
      (padding ≤ y → y ≤ env.viewport.height - env.rect.height - padding → top = y) := by
  have hx : padding ≤ env.viewport.width - env.rect.width - padding := by linarith
  have hy : padding ≤ env.viewport.height - env.rect.height - padding := by linarith
  refine ⟨max padding (min x (env.viewport.width - env.rect.width - padding)),
    max padding (min y (env.viewport.height - env.rect.height - padding)), ?_, ?_,
    le_max_left _ _, max_le hx (min_le_right _ _),
    le_max_left _ _, max_le hy (min_le_right _ _), ?_, ?_⟩
  · simp [handleResize, hd, hl]
  · simp [handleResize, hd, ht]
  · intro h1 h2
    rw [min_eq_left h2, max_eq_right h1]
  · intro h1 h2
    rw [min_eq_left h2, max_eq_right h1]

/-- Witness for `handleResize_in_bounds`: a button at (1100, 300) after the
window shrinks to 800 x 600 is brought back to `left ≤ 680` and keeps
`top = 300`. -/
theorem handleResize_in_bounds_witness :
    ∃ left top,
      (handleResize { initial with dodging := true, left := some 1100, top := some 300 }
        ⟨⟨800, 600⟩, ⟨1100, 300, 100, 40⟩, false⟩).left = some left ∧
      (handleResize { initial with dodging := true, left := some 1100, top := some 300 }
        ⟨⟨800, 600⟩, ⟨1100, 300, 100, 40⟩, false⟩).top = some top ∧
      left ≤ 800 - 100 - padding ∧ top = 300 := by
  obtain ⟨l, t, h1, h2, -, h4, -, -, -, h8⟩ :=
    handleResize_in_bounds { initial with dodging := true, left := some 1100, top := some 300 }
      ⟨⟨800, 600⟩, ⟨1100, 300, 100, 40⟩, false⟩ 1100 300 rfl rfl rfl
      (by norm_num [padding]) (by norm_num [padding])
  exact ⟨l, t, h1, h2, h4, h8 (by norm_num [padding]) (by norm_num [padding])⟩

end Dodge

namespace Drive

/-! ## Crossfade parameters of `animate` -/

/-- C12: with the coded constants (`DRIVE_END = 10`, `FADE_DURATION = 3`,
`BOUQUET_START = 13`), a frame of `animate` with `elapsed` in
`[DRIVE_END, BOUQUET_START)` calls `drawBouquet` with `fadeT = (elapsed - 10) / 3`
in `[0, 1)` and alpha `min(1, 1.5 × fadeT)` in `[0, 1]`, and that call does not
take the idle branch: it draws with `breathe = 1`, `swayX = 0` and every flower
at its interpolated position without sway.  A frame with
`elapsed ≥ BOUQUET_START` calls `drawBouquet` with assembly progress exactly 1
and alpha 1, and that call takes the idle branch: it draws with
`breathe = 0.98 + sin(1.5 × elapsed) × 0.02`, `swayX = sin(0.8 × elapsed) × 1.5`
and every flower displaced by its sine and cosine sway.  This holds for every
bouquet and whatever values the sine and cosine take. -/
theorem animate_fade_and_idle (s : Scene) (timestamp : ℚ) (sinF cosF : ℚ → ℚ)
    (bouquetFlowers : List Flower) :
    let elapsed := (timestamp - (if s.startTime = 0 then timestamp else s.startTime)) / 1000
    (DRIVE_END = 10 ∧ FADE_DURATION = 3 ∧ BOUQUET_START = 13) ∧
      (DRIVE_END ≤ elapsed → elapsed < BOUQUET_START →
        (0 ≤ (elapsed - 10) / 3 ∧ (elapsed - 10) / 3 < 1) ∧
        (0 ≤ min 1 ((elapsed - 10) / 3 * (3 / 2)) ∧ min 1 ((elapsed - 10) / 3 * (3 / 2)) ≤ 1) ∧
        (animate s timestamp).2 =
          [Draw.clearRect, Draw.driveScene, Draw.moonMorph ((elapsed - 10) / 3),
            Draw.bouquet elapsed ((elapsed - 10) / 3) (min 1 ((elapsed - 10) / 3 * (3 / 2)))] ∧
        bouquetIdle ((elapsed - 10) / 3) = false ∧
        bouquetCalls sinF cosF bouquetFlowers (animate s timestamp).2 =
          [{ breathe := 1
             swayX := 0
             flowers := bouquetFlowers.map (fun f =>
               { rose := decide (f.type = "rose")
                 fx := f.startX + (f.targetX - f.startX) *
                   easeOutCubic (max 0 (min 1 (((elapsed - 10) / 3 - f.delay) / (8 / 10))))
                 fy := f.startY + (f.targetY - f.startY) *
                   easeOutCubic (max 0 (min 1 (((elapsed - 10) / 3 - f.delay) / (8 / 10))))
                 scale := f.scale
                 color := f.color
                 fAlpha := min 1 ((elapsed - 10) / 3 * (3 / 2)) *
                   min 1 (easeOutCubic
                     (max 0 (min 1 (((elapsed - 10) / 3 - f.delay) / (8 / 10)))) * 2) }) }]) ∧
      (BOUQUET_START ≤ elapsed →
        (animate s timestamp).2 = [Draw.clearRect, Draw.paperFill, Draw.bouquet elapsed 1 1] ∧
        bouquetIdle 1 = true ∧
        bouquetCalls sinF cosF bouquetFlowers (animate s timestamp).2 =
          [{ breathe := 98 / 100 + sinF (elapsed * (3 / 2)) * (2 / 100)
             swayX := sinF (elapsed * (8 / 10)) * (3 / 2)
             flowers := bouquetFlowers.map (fun f =>
               { rose := decide (f.type = "rose")
                 fx := f.startX + (f.targetX - f.startX) *
                     easeOutCubic (max 0 (min 1 ((1 - f.delay) / (8 / 10)))) +
                   sinF (elapsed * f.swaySpeed + f.swayPhase) * (3 / 2)
                 fy := f.startY + (f.targetY - f.startY) *
                     easeOutCubic (max 0 (min 1 ((1 - f.delay) / (8 / 10)))) +
                   cosF (elapsed * f.swaySpeed * (7 / 10) + f.swayPhase) * 1
                 scale := f.scale
                 color := f.color
                 fAlpha := 1 *
                   min 1 (easeOutCubic (max 0 (min 1 ((1 - f.delay) / (8 / 10)))) * 2) }) }]) := by
  intro elapsed
  refine ⟨⟨rfl, rfl, by norm_num [BOUQUET_START, DRIVE_END, FADE_DURATION]⟩, ?_, ?_⟩
  · intro h1 h2
    have h1' : (10 : ℚ) ≤ elapsed := h1
    have h2' : elapsed < 13 := by
      have : BOUQUET_START = 13 := by norm_num [BOUQUET_START, DRIVE_END, FADE_DURATION]
      rw [this] at h2
      exact h2
    have hf0 : 0 ≤ (elapsed - 10) / 3 := div_nonneg (by linarith) (by norm_num)
    have hf1 : (elapsed - 10) / 3 < 1 := by
      rw [div_lt_one (by norm_num)]
      linarith
    have hdraw : (animate s timestamp).2 =
        [Draw.clearRect, Draw.driveScene, Draw.moonMorph ((elapsed - 10) / 3),
          Draw.bouquet elapsed ((elapsed - 10) / 3)
            (min 1 ((elapsed - 10) / 3 * (3 / 2)))] := by
      have hn1 : ¬ elapsed < DRIVE_END := not_lt.mpr h1
      simp only [animate]
      rw [if_neg hn1, if_pos h2]
      simp only [DRIVE_END, FADE_DURATION]
    have hidle : bouquetIdle ((elapsed - 10) / 3) = false := by
      simp only [bouquetIdle, ge_iff_le, decide_eq_false_iff_not, not_le]
      exact hf1
    refine ⟨⟨hf0, hf1⟩, ⟨le_min (by norm_num) (mul_nonneg hf0 (by norm_num)),
      min_le_left _ _⟩, hdraw, hidle, ?_⟩
    rw [hdraw]
    simp only [bouquetCalls, drawBouquet, bouquetBreatheSway, hidle, Bool.false_eq_true,
      if_false, List.cons.injEq, BouquetDraw.mk.injEq, true_and, and_true]
    apply List.map_congr_left
    intro f _
    simp only [drawFlower, hidle, Bool.false_eq_true, if_false]
  · intro h3
    have h3' : (13 : ℚ) ≤ elapsed := by
      have : BOUQUET_START = 13 := by norm_num [BOUQUET_START, DRIVE_END, FADE_DURATION]
      rw [this] at h3
      exact h3
    have hdraw : (animate s timestamp).2 =
        [Draw.clearRect, Draw.paperFill, Draw.bouquet elapsed 1 1] := by
      have hn1 : ¬ elapsed < DRIVE_END := by
        simp only [DRIVE_END, not_lt]
        linarith
      have hn2 : ¬ elapsed < BOUQUET_START := not_lt.mpr h3
      have hp : min 1 ((elapsed - DRIVE_END) / FADE_DURATION) = 1 := by
        apply min_eq_left
        simp only [DRIVE_END, FADE_DURATION]
        rw [le_div_iff₀ (by norm_num)]
        linarith
      simp only [animate]
      rw [if_neg hn1, if_neg hn2]
      simp only [hp]
    have hidle : bouquetIdle 1 = true := by simp [bouquetIdle]
    refine ⟨hdraw, hidle, ?_⟩
    rw [hdraw]
    simp only [bouquetCalls, drawBouquet, bouquetBreatheSway, hidle, if_true,
      List.cons.injEq, BouquetDraw.mk.injEq, true_and, and_true]
    apply List.map_congr_left
    intro f _
    simp only [drawFlower, hidle, if_true]

/-- Witness for `animate_fade_and_idle`, with a one-rose bouquet and sine and
cosine replaced by the constant `1/2`: 11.5 s after a first frame at 1000 ms the
bouquet is drawn with `fadeT = 1/2`, `breathe = 1` and `swayX = 0`; 14 s after
it, with `breathe = 0.99` and `swayX = 0.75`. -/
theorem animate_fade_and_idle_witness :
    ((animate ⟨1000, 1, 0, 0⟩ 12500).2 =
        [Draw.clearRect, Draw.driveScene, Draw.moonMorph (1 / 2),
          Draw.bouquet (23 / 2) (1 / 2) (3 / 4)] ∧
      (bouquetCalls (fun _ => 1 / 2) (fun _ => 1 / 2)
          [⟨"rose", "#D25F3E", 1, 400, 250, 650, 80, 0, 0, 1⟩]
          (animate ⟨1000, 1, 0, 0⟩ 12500).2).map (fun b => (b.breathe, b.swayX))
        = [(1, 0)]) ∧
      (bouquetCalls (fun _ => 1 / 2) (fun _ => 1 / 2)
          [⟨"rose", "#D25F3E", 1, 400, 250, 650, 80, 0, 0, 1⟩]
          (animate ⟨1000, 1, 0, 0⟩ 15000).2).map (fun b => (b.breathe, b.swayX))
        = [(99 / 100, 3 / 4)] := by
  have h := animate_fade_and_idle ⟨1000, 1, 0, 0⟩ 12500 (fun _ => 1 / 2) (fun _ => 1 / 2)
    [⟨"rose", "#D25F3E", 1, 400, 250, 650, 80, 0, 0, 1⟩]
  have h' := animate_fade_and_idle ⟨1000, 1, 0, 0⟩ 15000 (fun _ => 1 / 2) (fun _ => 1 / 2)
    [⟨"rose", "#D25F3E", 1, 400, 250, 650, 80, 0, 0, 1⟩]
  have a := h.2.1 (by norm_num [DRIVE_END])
    (by norm_num [BOUQUET_START, DRIVE_END, FADE_DURATION])
  have b := h'.2.2 (by norm_num [BOUQUET_START, DRIVE_END, FADE_DURATION])
  refine ⟨⟨?_, ?_⟩, ?_⟩
  · have a3 := a.2.2.1
    norm_num at a3
    exact a3
  · rw [a.2.2.2.2]
    simp
  · rw [b.2.2]
    norm_num

end Drive

namespace Drive

/-! ## `computeX` -/

/-- For a non-negative dividend and a positive divisor the JavaScript remainder
lies in `[0, c)` and differs from the dividend by an integer multiple of the
divisor. -/
theorem jsRem_spec (a c : ℚ) (ha : 0 ≤ a) (hc : 0 < c) :
    0 ≤ jsRem a c ∧ jsRem a c < c ∧ ∃ k : ℤ, jsRem a c = a - (k : ℚ) * c := by
  have hq : 0 ≤ a / c := div_nonneg ha hc.le
  have ht : jsTrunc (a / c) = ⌊a / c⌋ := by simp [jsTrunc, hq]
  have h1 : ((⌊a / c⌋ : ℤ) : ℚ) ≤ a / c := Int.floor_le _
  have h2 : a / c < ((⌊a / c⌋ : ℤ) : ℚ) + 1 := Int.lt_floor_add_one _
  have e : a = c * (a / c) := by field_simp
  have h3 : c * ((⌊a / c⌋ : ℤ) : ℚ) ≤ a := by
    calc c * ((⌊a / c⌋ : ℤ) : ℚ) ≤ c * (a / c) := mul_le_mul_of_nonneg_left h1 hc.le
      _ = a := e.symm
  have h4 : a < c * (((⌊a / c⌋ : ℤ) : ℚ) + 1) := by
    calc a = c * (a / c) := e
      _ < c * (((⌊a / c⌋ : ℤ) : ℚ) + 1) := mul_lt_mul_of_pos_left h2 hc
  unfold jsRem
  rw [ht]
  refine ⟨by linarith, by linarith, ⌊a / c⌋, by ring⟩

/-- The loop does not run its body when the condition fails at once. -/
theorem addWhileBelow_stop (bound cycle x : ℚ) (fuel n : ℕ) (h : bound ≤ x) :
    addWhileBelow bound cycle (fuel + 1) x n = some (x, n) := by
  simp [addWhileBelow, not_lt.mpr h]

/-- The loop runs its body once when one addition reaches the bound. -/
theorem addWhileBelow_once (bound cycle x : ℚ) (fuel n : ℕ) (h : x < bound)
    (h' : bound ≤ x + cycle) :
    addWhileBelow bound cycle (fuel + 2) x n = some (x + cycle, n + 1) := by
  simp [addWhileBelow, h, not_lt.mpr h']

/-- The wrap-around computed by both `computeX` methods: starting from
`origX - (shift % cycle)` the loop stops after at most one execution of its
body. -/
theorem wrap_spec (bound cycle origX shift : ℚ) (fuel : ℕ) (hfuel : 2 ≤ fuel)
    (hc : 0 < cycle) (hs : 0 ≤ shift) (hb : bound ≤ 0) (ho : 0 ≤ origX) :
    ∃ x n, addWhileBelow bound cycle fuel (origX - jsRem shift cycle) 0 = some (x, n) ∧
      n ≤ 1 ∧ bound ≤ x ∧ (x ≤ origX ∨ x < bound + cycle) ∧
      ∃ k : ℤ, x = origX - shift + (k : ℚ) * cycle := by
  obtain ⟨r0, r1, k, hk⟩ := jsRem_spec shift cycle hs hc
  obtain ⟨f, rfl⟩ : ∃ f, fuel = f + 2 := ⟨fuel - 2, by omega⟩
  by_cases hlt : origX - jsRem shift cycle < bound
  · refine ⟨origX - jsRem shift cycle + cycle, 1, ?_, le_refl 1, by linarith,
      Or.inr (by linarith), k + 1, ?_⟩
    · exact addWhileBelow_once bound cycle _ f 0 hlt (by linarith)
    · rw [hk]
      push_cast
      ring
  · refine ⟨origX - jsRem shift cycle, 0, ?_, Nat.zero_le 1, not_lt.mp hlt,
      Or.inl (by linarith), k, ?_⟩
    · exact addWhileBelow_stop bound cycle _ (f + 1) 0 (not_lt.mp hlt)
    · rw [hk]
      ring

/-- C13: for every frame count `fc ≥ 0` and width `≥ 0`, with enough fuel for
two evaluations of the loop condition, `PalmTree.computeX` with `origX` in
`[0, width + 200)` returns, after at most one execution of its loop body, an
`x` with `-50 ≤ x < width + 200` congruent to `origX - fc × scrollSpeed` modulo
`width + 200`; `RoadMarker.computeX` with `origX` in `[0, width + 100)` returns
likewise an `x` with `-w ≤ x < width + 100` (`w = 40`) congruent to
`origX - 2.5 × fc × scrollSpeed` modulo `width + 100`. -/
theorem computeX_spec (width fc : ℚ) (fuel : ℕ) (hw : 0 ≤ width) (hfc : 0 ≤ fc)
    (hfuel : 2 ≤ fuel) :
    (∀ t : PalmTree, 0 ≤ t.origX → t.origX < width + 200 →
        ∃ x n, t.computeX width fuel fc = some (x, n) ∧ n ≤ 1 ∧
          -50 ≤ x ∧ x < width + 200 ∧
          ∃ k : ℤ, x = t.origX - fc * scrollSpeed + (k : ℚ) * (width + 200)) ∧
      (∀ m : RoadMarker, 0 ≤ m.origX → m.origX < width + 100 →
        ∃ x n, m.computeX width fuel fc = some (x, n) ∧ n ≤ 1 ∧ m.w = 40 ∧
          -m.w ≤ x ∧ x < width + 100 ∧
          ∃ k : ℤ, x = m.origX - 5 / 2 * fc * scrollSpeed + (k : ℚ) * (width + 100)) := by
  have hss : (0 : ℚ) ≤ scrollSpeed := by norm_num [scrollSpeed]
  constructor
  · intro t h0 h1
    obtain ⟨x, n, e, hn, hb, hu, k, hk⟩ := wrap_spec (-50) (width + 200) t.origX
      (fc * scrollSpeed) fuel hfuel (by linarith) (mul_nonneg hfc hss) (by norm_num) h0
    refine ⟨x, n, e, hn, hb, ?_, k, hk⟩
    rcases hu with hu | hu <;> linarith
  · intro m h0 h1
    have hmw : m.w = 40 := rfl
    obtain ⟨x, n, e, hn, hb, hu, k, hk⟩ := wrap_spec (-m.w) (width + 100) m.origX
      (fc * scrollSpeed * (5 / 2)) fuel hfuel (by linarith)
      (mul_nonneg (mul_nonneg hfc hss) (by norm_num)) (by rw [hmw]; norm_num) h0
    refine ⟨x, n, e, hn, hmw, hb, ?_, k, ?_⟩
    · rw [hmw] at hu
      rcases hu with hu | hu <;> linarith
    · rw [hk]
      ring

/-- Witness for `computeX_spec`: on a canvas 800 px wide, at frame 300, a tree
with `origX = 150` is drawn at `x = 550` after one wrap-around. -/
theorem computeX_spec_witness :
    ∃ x n, PalmTree.computeX 800 2 ⟨150, 100, 0, 8, 150⟩ 300 = some (x, n) ∧ n ≤ 1 ∧
      -50 ≤ x ∧ x < 800 + 200 :=
  let ⟨x, n, h1, h2, h3, h4, _⟩ :=
    (computeX_spec 800 300 2 (by norm_num) (by norm_num) (le_refl 2)).1
      ⟨150, 100, 0, 8, 150⟩ (by norm_num) (by norm_num)
  ⟨x, n, h1, h2, h3, h4⟩

end Drive

namespace Drive

/-! ## The tree and marker loops in desktop mode -/

/-- Overwriting position `i` and looking at the list from `i` on. -/
theorem drop_set_self {α : Type} (l : List α) (i : ℕ) (a : α) (h : i < l.length) :
    (l.set i a).drop i = a :: l.drop (i + 1) := by
  rw [List.set_eq_take_cons_drop a h]
  exact List.drop_left' (List.length_take_of_le h.le)

/-- Removing position `i` forgets what was written there. -/
theorem eraseIdx_set_self {α : Type} (l : List α) (i : ℕ) (a : α) :
    (l.set i a).eraseIdx i = l.eraseIdx i := by
  induction l generalizing i with
  | nil => simp
  | cons b l ih =>
    cases i with
    | zero => simp
    | succ i => simp [ih]

/-- The effect of `splice(i, 1)` followed by `push(b)`, from position `i` on. -/
theorem drop_splice_push {α : Type} (l : List α) (i : ℕ) (a b : α) (h : i < l.length) :
    ((l.set i a).eraseIdx i ++ [b]).drop i = l.drop (i + 1) ++ [b] := by
  rw [eraseIdx_set_self, List.eraseIdx_eq_take_drop_succ, List.append_assoc]
  exact List.drop_left' (List.length_take_of_le h.le)

/-- The operations `splice(i, 1)` followed by `push(b)` keep the length. -/
theorem length_splice_push {α : Type} (l : List α) (i : ℕ) (a b : α) (h : i < l.length) :
    ((l.set i a).eraseIdx i ++ [b]).length = l.length := by
  rw [eraseIdx_set_self, List.length_append, List.length_eraseIdx_of_lt h]
  simp only [List.length_singleton]
  omega

/-- One desktop iteration of the tree loop at a valid index. -/
theorem treeIteration_desktop (width : ℚ) (frameCount : ℤ) (fuel : ℕ) (rnd : ℕ → ℚ)
    (hr : ∀ k, 0 ≤ rnd k ∧ rnd k < 1) (i : ℕ) (trees : List PalmTree) (k : ℕ)
    (t : PalmTree) (ht : trees[i]? = some t) :
    ∃ trees' k' d,
      treeIteration false width frameCount fuel rnd i trees k = some (trees', k', d) ∧
      trees'.length = trees.length ∧ trees'[i]? = some d ∧
      (t.x - scrollSpeed < -50 →
        ∃ nt, trees' = trees.eraseIdx i ++ [nt] ∧ width ≤ nt.x ∧ nt.x < width + 100 ∧
          trees'.drop i = trees.drop (i + 1) ++ [nt]) ∧
      (¬ t.x - scrollSpeed < -50 →
        trees' = trees.set i { t with x := t.x - scrollSpeed } ∧
          trees'.drop i = { t with x := t.x - scrollSpeed } :: trees.drop (i + 1)) := by
  obtain ⟨hi, -⟩ := List.getElem?_eq_some.mp ht
  by_cases hlt : t.x - scrollSpeed < -50
  · have hlen := length_splice_push trees i { t with x := t.x - scrollSpeed }
      (newPalmTree (width + rnd k * 100) (rnd (k + 1)) (rnd (k + 2)) (rnd (k + 3))) hi
    have hi' : i < ((trees.set i { t with x := t.x - scrollSpeed }).eraseIdx i ++
        [newPalmTree (width + rnd k * 100) (rnd (k + 1)) (rnd (k + 2)) (rnd (k + 3))]).length := by
      rw [hlen]
      exact hi
    refine ⟨_, k + 4, _, ?_, hlen, List.getElem?_eq_getElem hi', ?_, ?_⟩
    · simp only [treeIteration, treeUpdate, ht, Bool.false_eq_true, if_false, hlt, if_true,
        List.getElem?_eq_getElem hi']
    · intro _
      refine ⟨_, by rw [eraseIdx_set_self], ?_, ?_, drop_splice_push trees i _ _ hi⟩
      · have := (hr k).1
        simp only [newPalmTree]
        linarith
      · have := (hr k).2
        simp only [newPalmTree]
        linarith
    · intro h
      exact absurd hlt h
  · have hi' : i < (trees.set i { t with x := t.x - scrollSpeed }).length := by
      rw [List.length_set]
      exact hi
    refine ⟨trees.set i { t with x := t.x - scrollSpeed }, k, _, ?_, List.length_set _ _ _,
      List.getElem?_eq_getElem hi', ?_, ?_⟩
    · simp only [treeIteration, treeUpdate, ht, Bool.false_eq_true, if_false, hlt,
        List.getElem?_eq_getElem hi']
    · intro h
      exact absurd h hlt
    · intro _
      exact ⟨rfl, drop_set_self trees i _ hi⟩

/-- The desktop tree loop from index `m - 1` down to 0: it runs to the end,
keeps the length, draws one tree per index, and leaves every tree at
`x ≥ -50` if those above index `m - 1` already are. -/
theorem treeLoop_desktop (width : ℚ) (hw : 0 ≤ width) (frameCount : ℤ) (fuel : ℕ)
    (rnd : ℕ → ℚ) (hr : ∀ k, 0 ≤ rnd k ∧ rnd k < 1) :
    ∀ (m : ℕ) (trees : List PalmTree) (k : ℕ) (drawn : List PalmTree),
      m ≤ trees.length → (∀ u ∈ trees.drop m, -50 ≤ u.x) →
      ∃ trees' k' drawn',
        treeLoop false width frameCount fuel rnd m trees k drawn = some (trees', k', drawn') ∧
        trees'.length = trees.length ∧ drawn'.length = drawn.length + m ∧
        ∀ u ∈ trees', -50 ≤ u.x := by
  intro m
  induction m with
  | zero =>
    intro trees k drawn _ hinv
    exact ⟨trees, k, drawn, rfl, rfl, rfl, by simpa using hinv⟩
  | succ i ih =>
    intro trees k drawn hm hinv
    have hi : i < trees.length := hm
    obtain ⟨trees₁, k₁, d, e, hlen, -, hrep, hkeep⟩ :=
      treeIteration_desktop width frameCount fuel rnd hr i trees k trees[i]
        (List.getElem?_eq_getElem hi)
    have hinv₁ : ∀ u ∈ trees₁.drop i, -50 ≤ u.x := by
      intro u hu
      by_cases hlt : trees[i].x - scrollSpeed < -50
      · obtain ⟨nt, -, h1, -, hd⟩ := hrep hlt
        rw [hd, List.mem_append, List.mem_singleton] at hu
        rcases hu with hu | hu
        · exact hinv u hu
        · rw [hu]
          linarith
      · obtain ⟨-, hd⟩ := hkeep hlt
        rw [hd, List.mem_cons] at hu
        rcases hu with hu | hu
        · rw [hu]
          exact not_lt.mp hlt
        · exact hinv u hu
    obtain ⟨trees₂, k₂, drawn₂, e₂, hlen₂, hdr₂, hall⟩ :=
      ih trees₁ k₁ (drawn ++ [d]) (by rw [hlen]; exact hi.le) hinv₁
    refine ⟨trees₂, k₂, drawn₂, ?_, by rw [hlen₂, hlen], ?_, hall⟩
    · simp only [treeLoop, e, e₂]
    · rw [hdr₂, List.length_append, List.length_singleton]
      omega

/-- One desktop iteration of the marker loop at a valid index. -/
theorem markerIteration_desktop (width : ℚ) (frameCount : ℤ) (fuel : ℕ) (j : ℕ)
    (roadMarkers : List RoadMarker) (m : RoadMarker) (hm : roadMarkers[j]? = some m) :
    ∃ d, markerIteration false width frameCount fuel j roadMarkers
        = some (roadMarkers.set j d, d) ∧
      d.origX = m.origX ∧ (m.x - 5 < -40 → d.x = width) ∧ (¬ m.x - 5 < -40 → d.x = m.x - 5) := by
  have e5 : scrollSpeed * (5 / 2) = 5 := by norm_num [scrollSpeed]
  by_cases hlt : m.x - 5 < -40
  · refine ⟨{ m with x := width }, ?_, rfl, fun _ => rfl, fun h => absurd hlt h⟩
    simp [markerIteration, hm, e5, RoadMarker.w, hlt]
  · refine ⟨{ m with x := m.x - 5 }, ?_, rfl, fun h => absurd h hlt, fun _ => rfl⟩
    simp [markerIteration, hm, e5, RoadMarker.w, hlt]

/-- The desktop marker loop from index `n - 1` down to 0: it runs to the end,
keeps the length, draws one marker per index, and leaves every marker at
`x ≥ -40` if those above index `n - 1` already are. -/
theorem markerLoop_desktop (width : ℚ) (hw : 0 ≤ width) (frameCount : ℤ) (fuel : ℕ) :
    ∀ (n : ℕ) (roadMarkers drawn : List RoadMarker),
      n ≤ roadMarkers.length → (∀ u ∈ roadMarkers.drop n, -40 ≤ u.x) →
      ∃ roadMarkers' drawn',
        markerLoop false width frameCount fuel n roadMarkers drawn
          = some (roadMarkers', drawn') ∧
        roadMarkers'.length = roadMarkers.length ∧ drawn'.length = drawn.length + n ∧
        ∀ u ∈ roadMarkers', -40 ≤ u.x := by
  intro n
  induction n with
  | zero =>
    intro roadMarkers drawn _ hinv
    exact ⟨roadMarkers, drawn, rfl, rfl, rfl, by simpa using hinv⟩
  | succ j ih =>
    intro roadMarkers drawn hn hinv
    have hj : j < roadMarkers.length := hn
    obtain ⟨d, e, -, hmove, hkeep⟩ :=
      markerIteration_desktop width frameCount fuel j roadMarkers roadMarkers[j]
        (List.getElem?_eq_getElem hj)
    have hd : -40 ≤ d.x := by
      by_cases hlt : roadMarkers[j].x - 5 < -40
      · rw [hmove hlt]
        linarith
      · rw [hkeep hlt]
        exact not_lt.mp hlt
    have hinv₁ : ∀ u ∈ (roadMarkers.set j d).drop j, -40 ≤ u.x := by
      intro u hu
      rw [drop_set_self roadMarkers j d hj, List.mem_cons] at hu
      rcases hu with hu | hu
      · rw [hu]
        exact hd
      · exact hinv u hu
    obtain ⟨ms₂, drawn₂, e₂, hlen₂, hdr₂, hall⟩ :=
      ih (roadMarkers.set j d) (drawn ++ [d]) (by rw [List.length_set]; exact hj.le) hinv₁
    refine ⟨ms₂, drawn₂, ?_, by rw [hlen₂, List.length_set], ?_, hall⟩
    · simp only [markerLoop, e, e₂]
    · rw [hdr₂, List.length_append, List.length_singleton]
      omega

/-- C14: in desktop mode, on a canvas of width `≥ 0` and with random draws in
`[0, 1)`, the tree and marker loops of every `drawDriveScene()` call run to the
end, preserve the number of trees and of road markers, draw a tree at every
index (also right after a removal) and a marker at every index, and leave every
tree at `x ≥ -50` and every road marker at `x ≥ -w = -40`.  In one iteration, a
tree that moved past `-50` is removed and a new tree with `x` in
`[width, width + 100)` is appended, any other tree is only moved by
`scrollSpeed`; a marker that moved past `-w` is put at `x = width`, any other
marker is only moved by `2.5 × scrollSpeed = 5`. -/
theorem drawDriveScene_desktop (width : ℚ) (hw : 0 ≤ width) (frameCount : ℤ) (fuel : ℕ)
    (rnd : ℕ → ℚ) (hr : ∀ k, 0 ≤ rnd k ∧ rnd k < 1)
    (trees : List PalmTree) (roadMarkers : List RoadMarker) (k : ℕ) :
    (∃ f, drawDriveScene false width frameCount fuel rnd trees roadMarkers k = some f ∧
        f.trees.length = trees.length ∧ f.roadMarkers.length = roadMarkers.length ∧
        f.drawnTrees.length = trees.length ∧ f.drawnMarkers.length = roadMarkers.length ∧
        (∀ t ∈ f.trees, -50 ≤ t.x) ∧ (∀ m ∈ f.roadMarkers, -m.w ≤ m.x ∧ m.w = 40)) ∧
      (∀ i t, trees[i]? = some t →
        ∃ trees' k' d,
          treeIteration false width frameCount fuel rnd i trees k = some (trees', k', d) ∧
          trees'.length = trees.length ∧ trees'[i]? = some d ∧
          (t.x - scrollSpeed < -50 →
            ∃ nt, trees' = trees.eraseIdx i ++ [nt] ∧ width ≤ nt.x ∧ nt.x < width + 100) ∧
          (¬ t.x - scrollSpeed < -50 →
            trees' = trees.set i { t with x := t.x - scrollSpeed })) ∧
      (∀ j m, roadMarkers[j]? = some m →
        ∃ d, markerIteration false width frameCount fuel j roadMarkers
            = some (roadMarkers.set j d, d) ∧
          d.origX = m.origX ∧ (m.x - 5 < -40 → d.x = width) ∧
          (¬ m.x - 5 < -40 → d.x = m.x - 5)) := by
  refine ⟨?_, ?_, ?_⟩
  · obtain ⟨trees', k', drawnTrees, e₁, hl₁, hd₁, ha₁⟩ :=
      treeLoop_desktop width hw frameCount fuel rnd hr trees.length trees k []
        (le_refl _) (by simp)
    obtain ⟨markers', drawnMarkers, e₂, hl₂, hd₂, ha₂⟩ :=
      markerLoop_desktop width hw frameCount fuel roadMarkers.length roadMarkers []
        (le_refl _) (by simp)
    refine ⟨⟨trees', markers', k', drawnTrees, drawnMarkers⟩, ?_, hl₁, hl₂, ?_, ?_, ha₁, ?_⟩
    · simp only [drawDriveScene, e₁, e₂]
    · simpa using hd₁
    · simpa using hd₂
    · intro m hm
      exact ⟨by simpa [RoadMarker.w] using ha₂ m hm, rfl⟩
  · intro i t ht
    obtain ⟨trees', k', d, e, hlen, hget, hrep, hkeep⟩ :=
      treeIteration_desktop width frameCount fuel rnd hr i trees k t ht
    refine ⟨trees', k', d, e, hlen, hget, ?_, fun h => (hkeep h).1⟩
    intro h
    obtain ⟨nt, h1, h2, h3, -⟩ := hrep h
    exact ⟨nt, h1, h2, h3⟩
  · intro j m hm
    exact markerIteration_desktop width frameCount fuel j roadMarkers m hm

/-- Witness for `drawDriveScene_desktop`: a frame on a canvas 800 px wide with
a tree at `x = -49` (it moves past `-50` and is replaced) and a marker at
`x = -38` (it moves past `-40` and is put back at `x = 800`). -/
theorem drawDriveScene_desktop_witness :
    ∃ f, drawDriveScene false 800 0 0 (fun _ => 1 / 2)
        [⟨-49, 100, 0, 8, 0⟩, ⟨300, 120, 5, 7, 300⟩] [⟨-38, 0⟩, ⟨42, 80⟩] 0 = some f ∧
      f.trees.length = 2 ∧ f.roadMarkers.length = 2 ∧ ∀ t ∈ f.trees, -50 ≤ t.x :=
  let ⟨f, h1, h2, h3, _, _, h6, _⟩ :=
    (drawDriveScene_desktop 800 (by norm_num) 0 0 (fun _ => 1 / 2)
      (fun _ => ⟨by norm_num, by norm_num⟩)
      [⟨-49, 100, 0, 8, 0⟩, ⟨300, 120, 5, 7, 300⟩] [⟨-38, 0⟩, ⟨42, 80⟩] 0).1
  ⟨f, h1, h2, h3, h6⟩

end Drive
